import Mathlib

/-!
Verification development for the mini-math 3D linear-algebra library
(vector / point / 4x4-matrix types over IEEE-754 binary32 floats).

The library's scalar type is Rust's `f32`.  We model it faithfully by
`F32`: NaN, signed infinities, and finite values in the canonical
IEEE-754 binary32 representation, a sign together with a mantissa
`m < 2^24` and an exponent `e` with value `(-1)^sign * m * 2^e`,
where `-149 ≤ e ≤ 104` and subnormal/zero values (`m < 2^23`) are
pinned to `e = -149`.  All arithmetic operations perform the IEEE
round-to-nearest, ties-to-even rounding; division and square root are
correctly rounded via integer quotient / integer square root with a
sticky bit.
-/

set_option maxRecDepth 1000000
set_option maxHeartbeats 2000000

namespace MiniMath

inductive F32 where
  | nan : F32
  | inf (sgn : Bool) : F32
  | fin (sgn : Bool) (m : Nat) (e : Int) : F32
deriving DecidableEq, Repr

/-- Number of binary digits of `n`, with explicit fuel (structural recursion). -/
def bitlen : Nat → Nat → Nat
  | 0, _ => 0
  | fuel + 1, n => if n = 0 then 0 else bitlen fuel (n / 2) + 1

/-- Number of binary digits of `n`: `2^(blen n - 1) ≤ n < 2^(blen n)` for `n ≠ 0`. -/
def blen (n : Nat) : Nat := bitlen (n + 1) n

/-- Canonical (well-formed) representations: these are exactly the values an
actual `f32` bit pattern can denote. -/
def F32.Wf : F32 → Prop
  | .fin _ m e => m < 2 ^ 24 ∧ -149 ≤ e ∧ e ≤ 104 ∧ (m < 2 ^ 23 → e = -149)
  | _ => True

instance : DecidablePred F32.Wf := by
  intro x
  cases x with
  | nan => exact .isTrue trivial
  | inf s => exact .isTrue trivial
  | fin s m e => exact inferInstanceAs (Decidable (_ ∧ _))

def F32.isFinite : F32 → Bool
  | .fin _ _ _ => true
  | _ => false

/-- Round-to-nearest, ties-to-even of the nonnegative dyadic value `m * 2^e`,
with the given sign attached; overflows to infinity. -/
def roundPos (sgn : Bool) (m : Nat) (e : Int) : F32 :=
  if m = 0 then .fin sgn 0 (-149)
  else
    let n : Int := blen m
    let E0 : Int := e + n - 24
    let Et : Int := max E0 (-149)
    let shift : Int := Et - e
    if shift ≤ 0 then
      let M := m * 2 ^ (-shift).toNat
      if Et > 104 then .inf sgn else .fin sgn M Et
    else
      let sh := shift.toNat
      let q := m / 2 ^ sh
      let low := m % 2 ^ sh
      let half := 2 ^ (sh - 1)
      let q1 := if half < low ∨ (low = half ∧ q % 2 = 1) then q + 1 else q
      if q1 < 2 ^ 24 then
        if Et > 104 then .inf sgn else .fin sgn q1 Et
      else
        if Et + 1 > 104 then .inf sgn else .fin sgn (q1 / 2) (Et + 1)

def f32Zero : F32 := .fin false 0 (-149)
def f32NegZero : F32 := .fin true 0 (-149)
def f32One : F32 := .fin false (2 ^ 23) (-23)
/-- The constant `f32::EPSILON = 2^-23`. -/
def f32Eps : F32 := .fin false (2 ^ 23) (-46)
/-- The `f32` nearest to the integer `i` (exact for small integers). -/
def f32OfInt (i : Int) : F32 := roundPos (decide (i < 0)) i.natAbs 0

def f32Neg : F32 → F32
  | .nan => .nan
  | .inf s => .inf (!s)
  | .fin s m e => .fin (!s) m e

def f32Abs : F32 → F32
  | .nan => .nan
  | .inf _ => .inf false
  | .fin _ m e => .fin false m e

/-- IEEE-754 addition (round to nearest, ties to even).  An exactly zero sum
of two non-NaN operands is `+0` unless both operands are negative (`-0`). -/
def f32Add : F32 → F32 → F32
  | .nan, _ => .nan
  | _, .nan => .nan
  | .inf s, .inf t => if s = t then .inf s else .nan
  | .inf s, .fin _ _ _ => .inf s
  | .fin _ _ _, .inf t => .inf t
  | .fin s1 m1 e1, .fin s2 m2 e2 =>
    let emin := min e1 e2
    let i1 : Int := (if s1 then -(m1 : Int) else (m1 : Int)) * 2 ^ (e1 - emin).toNat
    let i2 : Int := (if s2 then -(m2 : Int) else (m2 : Int)) * 2 ^ (e2 - emin).toNat
    let S := i1 + i2
    if S = 0 then (if s1 && s2 then .fin true 0 (-149) else .fin false 0 (-149))
    else roundPos (decide (S < 0)) S.natAbs emin

def f32Sub (a b : F32) : F32 := f32Add a (f32Neg b)

/-- IEEE-754 multiplication (round to nearest, ties to even). -/
def f32Mul : F32 → F32 → F32
  | .nan, _ => .nan
  | _, .nan => .nan
  | .inf s, .inf t => .inf (xor s t)
  | .inf s, .fin t m _ => if m = 0 then .nan else .inf (xor s t)
  | .fin s m _, .inf t => if m = 0 then .nan else .inf (xor s t)
  | .fin s1 m1 e1, .fin s2 m2 e2 =>
    if m1 * m2 = 0 then .fin (xor s1 s2) 0 (-149)
    else roundPos (xor s1 s2) (m1 * m2) (e1 + e2)

/-- IEEE-754 division, correctly rounded: the quotient mantissa is computed
with 64 guard bits and a sticky bit.  Division of a nonzero finite value by a
zero yields a signed infinity. -/
def f32Div : F32 → F32 → F32
  | .nan, _ => .nan
  | _, .nan => .nan
  | .inf _, .inf _ => .nan
  | .inf s, .fin t _ _ => .inf (xor s t)
  | .fin s _ _, .inf t => .fin (xor s t) 0 (-149)
  | .fin s1 m1 e1, .fin s2 m2 e2 =>
    if m2 = 0 then (if m1 = 0 then .nan else .inf (xor s1 s2))
    else if m1 = 0 then .fin (xor s1 s2) 0 (-149)
    else
      let q := m1 * 2 ^ 64 / m2
      let r := m1 * 2 ^ 64 % m2
      let q1 := if r = 0 then q else (if q % 2 = 0 then q + 1 else q)
      roundPos (xor s1 s2) q1 (e1 - e2 - 64)

/-- Floor integer square root by Newton iteration with explicit fuel. -/
def isqrtAux : Nat → Nat → Nat → Nat
  | 0, _, x => x
  | fuel + 1, n, x =>
    let y := (x + n / x) / 2
    if x ≤ y then x else isqrtAux fuel n y

def isqrt (n : Nat) : Nat :=
  if n = 0 then 0 else isqrtAux 400 n (2 ^ (blen n / 2 + 1))

/-- IEEE-754 square root, correctly rounded (integer square root with 64-65
guard bits and a sticky bit).  `sqrt (-0) = -0`; negative inputs give NaN. -/
def f32Sqrt : F32 → F32
  | .nan => .nan
  | .inf s => if s then .nan else .inf false
  | .fin s m e =>
    if m = 0 then .fin s 0 (-149)
    else if s then .nan
    else
      let k : Nat := if e % 2 = 0 then 64 else 65
      let t := m * 2 ^ k
      let r := isqrt t
      let q1 := if r * r = t then r else (if r % 2 = 0 then r + 1 else r)
      roundPos false q1 ((e - k) / 2)

/-- IEEE-754 equality (`==` on `f32`): `+0 == -0`, NaN compares unequal. -/
def f32Eq : F32 → F32 → Bool
  | .nan, _ => false
  | _, .nan => false
  | .inf s, .inf t => s == t
  | .inf _, .fin _ _ _ => false
  | .fin _ _ _, .inf _ => false
  | .fin s1 m1 e1, .fin s2 m2 e2 =>
    (m1 == 0 && m2 == 0) || (s1 == s2 && m1 == m2 && e1 == e2)

/-- IEEE-754 strict less-than (`<` on `f32`): false on any NaN operand. -/
def f32Lt : F32 → F32 → Bool
  | .nan, _ => false
  | _, .nan => false
  | .inf s, .inf t => s && !t
  | .inf s, .fin _ _ _ => s
  | .fin _ _ _, .inf t => !t
  | .fin s1 m1 e1, .fin s2 m2 e2 =>
    let emin := min e1 e2
    let i1 : Int := (if s1 then -(m1 : Int) else (m1 : Int)) * 2 ^ (e1 - emin).toNat
    let i2 : Int := (if s2 then -(m2 : Int) else (m2 : Int)) * 2 ^ (e2 - emin).toNat
    decide (i1 < i2)

/-- The scalar approximate-equality predicate of the library
(`impl NearlyEqual for f32`): `(self - rhs).abs() < f32::EPSILON`. -/
def f32NearlyEq (a b : F32) : Bool := f32Lt (f32Abs (f32Sub a b)) f32Eps

/-! ### The library's data types (vector.rs, point.rs, matrix.rs) -/

/-- `Vector3 { x, y, z }` from vector.rs. -/
structure Vector3 where
  x : F32
  y : F32
  z : F32
deriving DecidableEq, Repr

/-- `Vector4 { x, y, z, w }` from vector.rs. -/
structure Vector4 where
  x : F32
  y : F32
  z : F32
  w : F32
deriving DecidableEq, Repr

/-- `Point { x, y, z }` from point.rs. -/
structure Point where
  x : F32
  y : F32
  z : F32
deriving DecidableEq, Repr

/-- `Matrix4(pub [Vector4; 4])` from matrix.rs: four stored column vectors;
`ci` is `self.0[i]` and the scalar `self.0[i][j]` is component `j`
(`x`,`y`,`z`,`w`) of `ci`. -/
structure Matrix4 where
  c0 : Vector4
  c1 : Vector4
  c2 : Vector4
  c3 : Vector4
deriving DecidableEq, Repr

/-- `Vector3::dot`: `[self.x*rhs.x, self.y*rhs.y, self.z*rhs.z].iter().sum()`,
where `Sum for f32` folds `+` starting from `0.0`. -/
def dot3 (a b : Vector3) : F32 :=
  f32Add (f32Add (f32Add f32Zero (f32Mul a.x b.x)) (f32Mul a.y b.y)) (f32Mul a.z b.z)

/-- `Vector4::dot`, same shape with four components. -/
def dot4 (a b : Vector4) : F32 :=
  f32Add (f32Add (f32Add (f32Add f32Zero (f32Mul a.x b.x)) (f32Mul a.y b.y))
      (f32Mul a.z b.z)) (f32Mul a.w b.w)

/-- `Vector3::magnitude_squared`: `self.dot(*self)`. -/
def Vector3.magnitudeSquared (v : Vector3) : F32 := dot3 v v

/-- `Vector3::magnitude`: `self.magnitude_squared().sqrt()`. -/
def Vector3.magnitude (v : Vector3) : F32 := f32Sqrt v.magnitudeSquared

/-- `Vector3::normalized`: divide by the magnitude when `d > 0.0`
(via `*self * (1.0 / d)`), otherwise return `*self` unchanged. -/
def Vector3.normalized (v : Vector3) : Vector3 :=
  let d := v.magnitude
  if f32Lt f32Zero d then
    let d1 := f32Div f32One d
    ⟨f32Mul v.x d1, f32Mul v.y d1, f32Mul v.z d1⟩
  else v

/-- Derived `PartialEq` on `Vector3` (componentwise IEEE `==`). -/
def vector3Beq (a b : Vector3) : Bool :=
  f32Eq a.x b.x && f32Eq a.y b.y && f32Eq a.z b.z

/-- Derived `PartialEq` on `Vector4`. -/
def vector4Beq (a b : Vector4) : Bool :=
  f32Eq a.x b.x && f32Eq a.y b.y && f32Eq a.z b.z && f32Eq a.w b.w

/-- Derived `PartialEq` on `Point`. -/
def pointBeq (a b : Point) : Bool :=
  f32Eq a.x b.x && f32Eq a.y b.y && f32Eq a.z b.z

/-- Derived `PartialEq` on `Matrix4`. -/
def matrix4Beq (a b : Matrix4) : Bool :=
  vector4Beq a.c0 b.c0 && vector4Beq a.c1 b.c1 &&
  vector4Beq a.c2 b.c2 && vector4Beq a.c3 b.c3

/-- `NearlyEqual for &Vector4` (nearly-equal on each field, in order). -/
def vector4NearlyEq (a b : Vector4) : Bool :=
  f32NearlyEq a.x b.x && f32NearlyEq a.y b.y &&
  f32NearlyEq a.z b.z && f32NearlyEq a.w b.w

/-- `NearlyEqual for &Vector3`. -/
def vector3NearlyEq (a b : Vector3) : Bool :=
  f32NearlyEq a.x b.x && f32NearlyEq a.y b.y && f32NearlyEq a.z b.z

/-- `NearlyEqual for &Matrix4` (all four stored columns nearly equal). -/
def matrix4NearlyEq (a b : Matrix4) : Bool :=
  vector4NearlyEq a.c0 b.c0 && vector4NearlyEq a.c1 b.c1 &&
  vector4NearlyEq a.c2 b.c2 && vector4NearlyEq a.c3 b.c3

/-! ### Matrix constructors (matrix.rs) -/

/-- `Matrix4::identity`. -/
def Matrix4.identity : Matrix4 :=
  ⟨⟨f32One, f32Zero, f32Zero, f32Zero⟩,
   ⟨f32Zero, f32One, f32Zero, f32Zero⟩,
   ⟨f32Zero, f32Zero, f32One, f32Zero⟩,
   ⟨f32Zero, f32Zero, f32Zero, f32One⟩⟩

/-- `Matrix4::translation(v)`. -/
def Matrix4.translation (v : Vector3) : Matrix4 :=
  ⟨⟨f32One, f32Zero, f32Zero, f32Zero⟩,
   ⟨f32Zero, f32One, f32Zero, f32Zero⟩,
   ⟨f32Zero, f32Zero, f32One, f32Zero⟩,
   ⟨v.x, v.y, v.z, f32One⟩⟩

/-- `Matrix4::rotation_x(angle_radians)`, parameterized by the computed
values `c = angle_radians.cos()` and `s = angle_radians.sin()` (the `cos`/`sin`
calls are the platform libm; the matrix shape is what the source fixes). -/
def Matrix4.rotationX (c s : F32) : Matrix4 :=
  ⟨⟨f32One, f32Zero, f32Zero, f32Zero⟩,
   ⟨f32Zero, c, f32Neg s, f32Zero⟩,
   ⟨f32Zero, s, c, f32Zero⟩,
   ⟨f32Zero, f32Zero, f32Zero, f32One⟩⟩

/-- `Matrix4::rotation_y(angle_radians)` with `c`, `s` as in `rotationX`. -/
def Matrix4.rotationY (c s : F32) : Matrix4 :=
  ⟨⟨c, f32Zero, s, f32Zero⟩,
   ⟨f32Zero, f32One, f32Zero, f32Zero⟩,
   ⟨f32Neg s, f32Zero, c, f32Zero⟩,
   ⟨f32Zero, f32Zero, f32Zero, f32One⟩⟩

/-- `Matrix4::rotation_z(angle_radians)` with `c`, `s` as in `rotationX`. -/
def Matrix4.rotationZ (c s : F32) : Matrix4 :=
  ⟨⟨c, f32Neg s, f32Zero, f32Zero⟩,
   ⟨s, c, f32Zero, f32Zero⟩,
   ⟨f32Zero, f32Zero, f32One, f32Zero⟩,
   ⟨f32Zero, f32Zero, f32Zero, f32One⟩⟩

/-- `Matrix4::perspective(aspect_ratio, fov_radians, znear, zfar)`,
parameterized by `t = (fov_radians / 2.0).tan()` (libm call); the source
computes `f = 1.0 / t` and fills the matrix as below. -/
def Matrix4.perspective (aspectRatio t znear zfar : F32) : Matrix4 :=
  let f := f32Div f32One t
  ⟨⟨f32Div f aspectRatio, f32Zero, f32Zero, f32Zero⟩,
   ⟨f32Zero, f, f32Zero, f32Zero⟩,
   ⟨f32Zero, f32Zero, f32Div (f32Add zfar znear) (f32Sub znear zfar), f32Neg f32One⟩,
   ⟨f32Zero, f32Zero,
     f32Div (f32Mul (f32Mul (f32OfInt 2) zfar) znear) (f32Sub znear zfar), f32Zero⟩⟩

/-- `Matrix4::from_1d_array(a)`, exactly as written in the source
(including the `a[4]` appearing where `a[7]` would complete the pattern). -/
def Matrix4.from1dArray (a : Fin 16 → F32) : Matrix4 :=
  ⟨⟨a 0, a 1, a 2, a 3⟩,
   ⟨a 4, a 5, a 6, a 4⟩,
   ⟨a 8, a 9, a 10, a 11⟩,
   ⟨a 12, a 13, a 14, a 15⟩⟩

/-- `Matrix4::from_2d_array(a)`. -/
def Matrix4.from2dArray (a : Fin 4 → Fin 4 → F32) : Matrix4 :=
  ⟨⟨a 0 0, a 0 1, a 0 2, a 0 3⟩,
   ⟨a 1 0, a 1 1, a 1 2, a 1 3⟩,
   ⟨a 2 0, a 2 1, a 2 2, a 2 3⟩,
   ⟨a 3 0, a 3 1, a 3 2, a 3 3⟩⟩

/-! ### Matrix composition and application (operators.rs) -/

/-- `impl Mul for Matrix4`: `result.0[i][j] = rhs.0[i][0]*self.0[0][j] +
rhs.0[i][1]*self.0[1][j] + rhs.0[i][2]*self.0[2][j] + rhs.0[i][3]*self.0[3][j]`
(left-associated f32 sums).  `matMul a b` is the Rust `a * b`. -/
def matMulCol (a : Matrix4) (r : Vector4) : Vector4 :=
  ⟨f32Add (f32Add (f32Add (f32Mul r.x a.c0.x) (f32Mul r.y a.c1.x)) (f32Mul r.z a.c2.x)) (f32Mul r.w a.c3.x),
   f32Add (f32Add (f32Add (f32Mul r.x a.c0.y) (f32Mul r.y a.c1.y)) (f32Mul r.z a.c2.y)) (f32Mul r.w a.c3.y),
   f32Add (f32Add (f32Add (f32Mul r.x a.c0.z) (f32Mul r.y a.c1.z)) (f32Mul r.z a.c2.z)) (f32Mul r.w a.c3.z),
   f32Add (f32Add (f32Add (f32Mul r.x a.c0.w) (f32Mul r.y a.c1.w)) (f32Mul r.z a.c2.w)) (f32Mul r.w a.c3.w)⟩

def matMul (a b : Matrix4) : Matrix4 :=
  ⟨matMulCol a b.c0, matMulCol a b.c1, matMulCol a b.c2, matMulCol a b.c3⟩

/-- `impl Mul<Point> for Matrix4`. -/
def matMulPoint (m : Matrix4) (p : Point) : Point :=
  ⟨f32Add (f32Add (f32Add (f32Mul m.c0.x p.x) (f32Mul m.c1.x p.y)) (f32Mul m.c2.x p.z)) m.c3.x,
   f32Add (f32Add (f32Add (f32Mul m.c0.y p.x) (f32Mul m.c1.y p.y)) (f32Mul m.c2.y p.z)) m.c3.y,
   f32Add (f32Add (f32Add (f32Mul m.c0.z p.x) (f32Mul m.c1.z p.y)) (f32Mul m.c2.z p.z)) m.c3.z⟩

/-- `impl Mul<Vector3> for Matrix4`. -/
def matMulVector3 (m : Matrix4) (v : Vector3) : Vector3 :=
  ⟨f32Add (f32Add (f32Mul m.c0.x v.x) (f32Mul m.c1.x v.y)) (f32Mul m.c2.x v.z),
   f32Add (f32Add (f32Mul m.c0.y v.x) (f32Mul m.c1.y v.y)) (f32Mul m.c2.y v.z),
   f32Add (f32Add (f32Mul m.c0.z v.x) (f32Mul m.c1.z v.y)) (f32Mul m.c2.z v.z)⟩

/-- `Matrix4::row(i)` for `i = 3`: `(self.0[0][3], self.0[1][3], self.0[2][3],
self.0[3][3])` (used by `Mul<Vector4>`). -/
def Matrix4.row3 (m : Matrix4) : Vector4 := ⟨m.c0.w, m.c1.w, m.c2.w, m.c3.w⟩

def Matrix4.row0 (m : Matrix4) : Vector4 := ⟨m.c0.x, m.c1.x, m.c2.x, m.c3.x⟩
def Matrix4.row1 (m : Matrix4) : Vector4 := ⟨m.c0.y, m.c1.y, m.c2.y, m.c3.y⟩
def Matrix4.row2 (m : Matrix4) : Vector4 := ⟨m.c0.z, m.c1.z, m.c2.z, m.c3.z⟩

/-- `impl Mul<Vector4> for Matrix4`: `(row(0).dot(rhs), ..., row(3).dot(rhs))`. -/
def matMulVector4 (m : Matrix4) (v : Vector4) : Vector4 :=
  ⟨dot4 m.row0 v, dot4 m.row1 v, dot4 m.row2 v, dot4 m.row3 v⟩

/-- `impl Mul<Matrix4> for Point`:
`Vector3::from_scalar(self.x).dot(Vector3::from(rhs.column(0)))` and so on. -/
def pointMulMat (p : Point) (m : Matrix4) : Point :=
  ⟨dot3 ⟨p.x, p.x, p.x⟩ ⟨m.c0.x, m.c0.y, m.c0.z⟩,
   dot3 ⟨p.y, p.y, p.y⟩ ⟨m.c1.x, m.c1.y, m.c1.z⟩,
   dot3 ⟨p.z, p.z, p.z⟩ ⟨m.c2.x, m.c2.y, m.c2.z⟩⟩

/-! ### Matrix inversion (matrix.rs, `Matrix4::invert`)

The sixteen `inv.0[i][j]` cofactor assignments are transliterated term by
term from the source (left-associated `f32` sums of triple products; a
leading `-` negates the first factor, as in Rust). -/

-- F32 adjugate entries, transliterated from Matrix4::invert
def Matrix4.adj00 (M : Matrix4) : F32 :=
  (f32Sub (f32Add (f32Add (f32Sub (f32Sub (f32Mul (f32Mul M.c1.y M.c2.z) M.c3.w) (f32Mul (f32Mul M.c1.y M.c2.w) M.c3.z)) (f32Mul (f32Mul M.c2.y M.c1.z) M.c3.w)) (f32Mul (f32Mul M.c2.y M.c1.w) M.c3.z)) (f32Mul (f32Mul M.c3.y M.c1.z) M.c2.w)) (f32Mul (f32Mul M.c3.y M.c1.w) M.c2.z))

def Matrix4.adj10 (M : Matrix4) : F32 :=
  (f32Add (f32Sub (f32Sub (f32Add (f32Add (f32Mul (f32Mul (f32Neg M.c1.x) M.c2.z) M.c3.w) (f32Mul (f32Mul M.c1.x M.c2.w) M.c3.z)) (f32Mul (f32Mul M.c2.x M.c1.z) M.c3.w)) (f32Mul (f32Mul M.c2.x M.c1.w) M.c3.z)) (f32Mul (f32Mul M.c3.x M.c1.z) M.c2.w)) (f32Mul (f32Mul M.c3.x M.c1.w) M.c2.z))

def Matrix4.adj20 (M : Matrix4) : F32 :=
  (f32Sub (f32Add (f32Add (f32Sub (f32Sub (f32Mul (f32Mul M.c1.x M.c2.y) M.c3.w) (f32Mul (f32Mul M.c1.x M.c2.w) M.c3.y)) (f32Mul (f32Mul M.c2.x M.c1.y) M.c3.w)) (f32Mul (f32Mul M.c2.x M.c1.w) M.c3.y)) (f32Mul (f32Mul M.c3.x M.c1.y) M.c2.w)) (f32Mul (f32Mul M.c3.x M.c1.w) M.c2.y))

def Matrix4.adj30 (M : Matrix4) : F32 :=
  (f32Add (f32Sub (f32Sub (f32Add (f32Add (f32Mul (f32Mul (f32Neg M.c1.x) M.c2.y) M.c3.z) (f32Mul (f32Mul M.c1.x M.c2.z) M.c3.y)) (f32Mul (f32Mul M.c2.x M.c1.y) M.c3.z)) (f32Mul (f32Mul M.c2.x M.c1.z) M.c3.y)) (f32Mul (f32Mul M.c3.x M.c1.y) M.c2.z)) (f32Mul (f32Mul M.c3.x M.c1.z) M.c2.y))

def Matrix4.adj01 (M : Matrix4) : F32 :=
  (f32Add (f32Sub (f32Sub (f32Add (f32Add (f32Mul (f32Mul (f32Neg M.c0.y) M.c2.z) M.c3.w) (f32Mul (f32Mul M.c0.y M.c2.w) M.c3.z)) (f32Mul (f32Mul M.c2.y M.c0.z) M.c3.w)) (f32Mul (f32Mul M.c2.y M.c0.w) M.c3.z)) (f32Mul (f32Mul M.c3.y M.c0.z) M.c2.w)) (f32Mul (f32Mul M.c3.y M.c0.w) M.c2.z))

def Matrix4.adj11 (M : Matrix4) : F32 :=
  (f32Sub (f32Add (f32Add (f32Sub (f32Sub (f32Mul (f32Mul M.c0.x M.c2.z) M.c3.w) (f32Mul (f32Mul M.c0.x M.c2.w) M.c3.z)) (f32Mul (f32Mul M.c2.x M.c0.z) M.c3.w)) (f32Mul (f32Mul M.c2.x M.c0.w) M.c3.z)) (f32Mul (f32Mul M.c3.x M.c0.z) M.c2.w)) (f32Mul (f32Mul M.c3.x M.c0.w) M.c2.z))

def Matrix4.adj21 (M : Matrix4) : F32 :=
  (f32Add (f32Sub (f32Sub (f32Add (f32Add (f32Mul (f32Mul (f32Neg M.c0.x) M.c2.y) M.c3.w) (f32Mul (f32Mul M.c0.x M.c2.w) M.c3.y)) (f32Mul (f32Mul M.c2.x M.c0.y) M.c3.w)) (f32Mul (f32Mul M.c2.x M.c0.w) M.c3.y)) (f32Mul (f32Mul M.c3.x M.c0.y) M.c2.w)) (f32Mul (f32Mul M.c3.x M.c0.w) M.c2.y))

def Matrix4.adj31 (M : Matrix4) : F32 :=
  (f32Sub (f32Add (f32Add (f32Sub (f32Sub (f32Mul (f32Mul M.c0.x M.c2.y) M.c3.z) (f32Mul (f32Mul M.c0.x M.c2.z) M.c3.y)) (f32Mul (f32Mul M.c2.x M.c0.y) M.c3.z)) (f32Mul (f32Mul M.c2.x M.c0.z) M.c3.y)) (f32Mul (f32Mul M.c3.x M.c0.y) M.c2.z)) (f32Mul (f32Mul M.c3.x M.c0.z) M.c2.y))

def Matrix4.adj02 (M : Matrix4) : F32 :=
  (f32Sub (f32Add (f32Add (f32Sub (f32Sub (f32Mul (f32Mul M.c0.y M.c1.z) M.c3.w) (f32Mul (f32Mul M.c0.y M.c1.w) M.c3.z)) (f32Mul (f32Mul M.c1.y M.c0.z) M.c3.w)) (f32Mul (f32Mul M.c1.y M.c0.w) M.c3.z)) (f32Mul (f32Mul M.c3.y M.c0.z) M.c1.w)) (f32Mul (f32Mul M.c3.y M.c0.w) M.c1.z))

def Matrix4.adj12 (M : Matrix4) : F32 :=
  (f32Add (f32Sub (f32Sub (f32Add (f32Add (f32Mul (f32Mul (f32Neg M.c0.x) M.c1.z) M.c3.w) (f32Mul (f32Mul M.c0.x M.c1.w) M.c3.z)) (f32Mul (f32Mul M.c1.x M.c0.z) M.c3.w)) (f32Mul (f32Mul M.c1.x M.c0.w) M.c3.z)) (f32Mul (f32Mul M.c3.x M.c0.z) M.c1.w)) (f32Mul (f32Mul M.c3.x M.c0.w) M.c1.z))

def Matrix4.adj22 (M : Matrix4) : F32 :=
  (f32Sub (f32Add (f32Add (f32Sub (f32Sub (f32Mul (f32Mul M.c0.x M.c1.y) M.c3.w) (f32Mul (f32Mul M.c0.x M.c1.w) M.c3.y)) (f32Mul (f32Mul M.c1.x M.c0.y) M.c3.w)) (f32Mul (f32Mul M.c1.x M.c0.w) M.c3.y)) (f32Mul (f32Mul M.c3.x M.c0.y) M.c1.w)) (f32Mul (f32Mul M.c3.x M.c0.w) M.c1.y))

def Matrix4.adj32 (M : Matrix4) : F32 :=
  (f32Add (f32Sub (f32Sub (f32Add (f32Add (f32Mul (f32Mul (f32Neg M.c0.x) M.c1.y) M.c3.z) (f32Mul (f32Mul M.c0.x M.c1.z) M.c3.y)) (f32Mul (f32Mul M.c1.x M.c0.y) M.c3.z)) (f32Mul (f32Mul M.c1.x M.c0.z) M.c3.y)) (f32Mul (f32Mul M.c3.x M.c0.y) M.c1.z)) (f32Mul (f32Mul M.c3.x M.c0.z) M.c1.y))

def Matrix4.adj03 (M : Matrix4) : F32 :=
  (f32Add (f32Sub (f32Sub (f32Add (f32Add (f32Mul (f32Mul (f32Neg M.c0.y) M.c1.z) M.c2.w) (f32Mul (f32Mul M.c0.y M.c1.w) M.c2.z)) (f32Mul (f32Mul M.c1.y M.c0.z) M.c2.w)) (f32Mul (f32Mul M.c1.y M.c0.w) M.c2.z)) (f32Mul (f32Mul M.c2.y M.c0.z) M.c1.w)) (f32Mul (f32Mul M.c2.y M.c0.w) M.c1.z))

def Matrix4.adj13 (M : Matrix4) : F32 :=
  (f32Sub (f32Add (f32Add (f32Sub (f32Sub (f32Mul (f32Mul M.c0.x M.c1.z) M.c2.w) (f32Mul (f32Mul M.c0.x M.c1.w) M.c2.z)) (f32Mul (f32Mul M.c1.x M.c0.z) M.c2.w)) (f32Mul (f32Mul M.c1.x M.c0.w) M.c2.z)) (f32Mul (f32Mul M.c2.x M.c0.z) M.c1.w)) (f32Mul (f32Mul M.c2.x M.c0.w) M.c1.z))

def Matrix4.adj23 (M : Matrix4) : F32 :=
  (f32Add (f32Sub (f32Sub (f32Add (f32Add (f32Mul (f32Mul (f32Neg M.c0.x) M.c1.y) M.c2.w) (f32Mul (f32Mul M.c0.x M.c1.w) M.c2.y)) (f32Mul (f32Mul M.c1.x M.c0.y) M.c2.w)) (f32Mul (f32Mul M.c1.x M.c0.w) M.c2.y)) (f32Mul (f32Mul M.c2.x M.c0.y) M.c1.w)) (f32Mul (f32Mul M.c2.x M.c0.w) M.c1.y))

def Matrix4.adj33 (M : Matrix4) : F32 :=
  (f32Sub (f32Add (f32Add (f32Sub (f32Sub (f32Mul (f32Mul M.c0.x M.c1.y) M.c2.z) (f32Mul (f32Mul M.c0.x M.c1.z) M.c2.y)) (f32Mul (f32Mul M.c1.x M.c0.y) M.c2.z)) (f32Mul (f32Mul M.c1.x M.c0.z) M.c2.y)) (f32Mul (f32Mul M.c2.x M.c0.y) M.c1.z)) (f32Mul (f32Mul M.c2.x M.c0.z) M.c1.y))

def Matrix4.invertDetRaw (M : Matrix4) : F32 :=
  (f32Add (f32Add (f32Add (f32Mul M.c0.x (Matrix4.adj00 M)) (f32Mul M.c0.y (Matrix4.adj10 M))) (f32Mul M.c0.z (Matrix4.adj20 M))) (f32Mul M.c0.w (Matrix4.adj30 M)))


/-- The reciprocal `det = 1.0 / det` computed inside `invert`. -/
def Matrix4.invertRecip (M : Matrix4) : F32 := f32Div f32One (Matrix4.invertDetRaw M)

/-- `Matrix4::invert`: the cofactor matrix with every entry scaled by the
reciprocal of the determinant (`inv.0[i][j] *= det`). -/
def Matrix4.invert (M : Matrix4) : Matrix4 :=
  let d := Matrix4.invertRecip M
  ⟨⟨f32Mul (Matrix4.adj00 M) d, f32Mul (Matrix4.adj01 M) d, f32Mul (Matrix4.adj02 M) d, f32Mul (Matrix4.adj03 M) d⟩,
   ⟨f32Mul (Matrix4.adj10 M) d, f32Mul (Matrix4.adj11 M) d, f32Mul (Matrix4.adj12 M) d, f32Mul (Matrix4.adj13 M) d⟩,
   ⟨f32Mul (Matrix4.adj20 M) d, f32Mul (Matrix4.adj21 M) d, f32Mul (Matrix4.adj22 M) d, f32Mul (Matrix4.adj23 M) d⟩,
   ⟨f32Mul (Matrix4.adj30 M) d, f32Mul (Matrix4.adj31 M) d, f32Mul (Matrix4.adj32 M) d, f32Mul (Matrix4.adj33 M) d⟩⟩

/-! ### Exact-arithmetic (rational) reading of the same algorithm

`QMatrix4` is a 4x4 rational matrix with `aij` standing for the stored
scalar `self.0[i][j]`; the cofactor formulas, determinant, scaling and the
matrix product below are the same expressions as in the source, read in
exact arithmetic instead of `f32`. -/

structure QMatrix4 where
  a00 : Rat
  a01 : Rat
  a02 : Rat
  a03 : Rat
  a10 : Rat
  a11 : Rat
  a12 : Rat
  a13 : Rat
  a20 : Rat
  a21 : Rat
  a22 : Rat
  a23 : Rat
  a30 : Rat
  a31 : Rat
  a32 : Rat
  a33 : Rat
deriving DecidableEq, Repr

-- Exact-arithmetic (rational) transliteration of the same cofactor formulas
def QMatrix4.adj00 (M : QMatrix4) : Rat :=
  M.a11 * M.a22 * M.a33 - M.a11 * M.a23 * M.a32 - M.a21 * M.a12 * M.a33 + M.a21 * M.a13 * M.a32 + M.a31 * M.a12 * M.a23 - M.a31 * M.a13 * M.a22

def QMatrix4.adj10 (M : QMatrix4) : Rat :=
  (-M.a10) * M.a22 * M.a33 + M.a10 * M.a23 * M.a32 + M.a20 * M.a12 * M.a33 - M.a20 * M.a13 * M.a32 - M.a30 * M.a12 * M.a23 + M.a30 * M.a13 * M.a22

def QMatrix4.adj20 (M : QMatrix4) : Rat :=
  M.a10 * M.a21 * M.a33 - M.a10 * M.a23 * M.a31 - M.a20 * M.a11 * M.a33 + M.a20 * M.a13 * M.a31 + M.a30 * M.a11 * M.a23 - M.a30 * M.a13 * M.a21

def QMatrix4.adj30 (M : QMatrix4) : Rat :=
  (-M.a10) * M.a21 * M.a32 + M.a10 * M.a22 * M.a31 + M.a20 * M.a11 * M.a32 - M.a20 * M.a12 * M.a31 - M.a30 * M.a11 * M.a22 + M.a30 * M.a12 * M.a21

def QMatrix4.adj01 (M : QMatrix4) : Rat :=
  (-M.a01) * M.a22 * M.a33 + M.a01 * M.a23 * M.a32 + M.a21 * M.a02 * M.a33 - M.a21 * M.a03 * M.a32 - M.a31 * M.a02 * M.a23 + M.a31 * M.a03 * M.a22

def QMatrix4.adj11 (M : QMatrix4) : Rat :=
  M.a00 * M.a22 * M.a33 - M.a00 * M.a23 * M.a32 - M.a20 * M.a02 * M.a33 + M.a20 * M.a03 * M.a32 + M.a30 * M.a02 * M.a23 - M.a30 * M.a03 * M.a22

def QMatrix4.adj21 (M : QMatrix4) : Rat :=
  (-M.a00) * M.a21 * M.a33 + M.a00 * M.a23 * M.a31 + M.a20 * M.a01 * M.a33 - M.a20 * M.a03 * M.a31 - M.a30 * M.a01 * M.a23 + M.a30 * M.a03 * M.a21

def QMatrix4.adj31 (M : QMatrix4) : Rat :=
  M.a00 * M.a21 * M.a32 - M.a00 * M.a22 * M.a31 - M.a20 * M.a01 * M.a32 + M.a20 * M.a02 * M.a31 + M.a30 * M.a01 * M.a22 - M.a30 * M.a02 * M.a21

def QMatrix4.adj02 (M : QMatrix4) : Rat :=
  M.a01 * M.a12 * M.a33 - M.a01 * M.a13 * M.a32 - M.a11 * M.a02 * M.a33 + M.a11 * M.a03 * M.a32 + M.a31 * M.a02 * M.a13 - M.a31 * M.a03 * M.a12

def QMatrix4.adj12 (M : QMatrix4) : Rat :=
  (-M.a00) * M.a12 * M.a33 + M.a00 * M.a13 * M.a32 + M.a10 * M.a02 * M.a33 - M.a10 * M.a03 * M.a32 - M.a30 * M.a02 * M.a13 + M.a30 * M.a03 * M.a12

def QMatrix4.adj22 (M : QMatrix4) : Rat :=
  M.a00 * M.a11 * M.a33 - M.a00 * M.a13 * M.a31 - M.a10 * M.a01 * M.a33 + M.a10 * M.a03 * M.a31 + M.a30 * M.a01 * M.a13 - M.a30 * M.a03 * M.a11

def QMatrix4.adj32 (M : QMatrix4) : Rat :=
  (-M.a00) * M.a11 * M.a32 + M.a00 * M.a12 * M.a31 + M.a10 * M.a01 * M.a32 - M.a10 * M.a02 * M.a31 - M.a30 * M.a01 * M.a12 + M.a30 * M.a02 * M.a11

def QMatrix4.adj03 (M : QMatrix4) : Rat :=
  (-M.a01) * M.a12 * M.a23 + M.a01 * M.a13 * M.a22 + M.a11 * M.a02 * M.a23 - M.a11 * M.a03 * M.a22 - M.a21 * M.a02 * M.a13 + M.a21 * M.a03 * M.a12

def QMatrix4.adj13 (M : QMatrix4) : Rat :=
  M.a00 * M.a12 * M.a23 - M.a00 * M.a13 * M.a22 - M.a10 * M.a02 * M.a23 + M.a10 * M.a03 * M.a22 + M.a20 * M.a02 * M.a13 - M.a20 * M.a03 * M.a12

def QMatrix4.adj23 (M : QMatrix4) : Rat :=
  (-M.a00) * M.a11 * M.a23 + M.a00 * M.a13 * M.a21 + M.a10 * M.a01 * M.a23 - M.a10 * M.a03 * M.a21 - M.a20 * M.a01 * M.a13 + M.a20 * M.a03 * M.a11

def QMatrix4.adj33 (M : QMatrix4) : Rat :=
  M.a00 * M.a11 * M.a22 - M.a00 * M.a12 * M.a21 - M.a10 * M.a01 * M.a22 + M.a10 * M.a02 * M.a21 + M.a20 * M.a01 * M.a12 - M.a20 * M.a02 * M.a11

def QMatrix4.det (M : QMatrix4) : Rat :=
  M.a00 * (QMatrix4.adj00 M) + M.a01 * (QMatrix4.adj10 M) + M.a02 * (QMatrix4.adj20 M) + M.a03 * (QMatrix4.adj30 M)


/-- `Matrix4::invert` in exact arithmetic: every cofactor entry divided by
the determinant. -/
def QMatrix4.invert (M : QMatrix4) : QMatrix4 :=
  let d := QMatrix4.det M
  ⟨M.adj00 / d, M.adj01 / d, M.adj02 / d, M.adj03 / d,
   M.adj10 / d, M.adj11 / d, M.adj12 / d, M.adj13 / d,
   M.adj20 / d, M.adj21 / d, M.adj22 / d, M.adj23 / d,
   M.adj30 / d, M.adj31 / d, M.adj32 / d, M.adj33 / d⟩

/-- `impl Mul for Matrix4` in exact arithmetic:
`result.0[i][j] = Σ_k rhs.0[i][k] * self.0[k][j]` for `qmatMul self rhs`. -/
def qmatMul (a b : QMatrix4) : QMatrix4 :=
  ⟨b.a00 * a.a00 + b.a01 * a.a10 + b.a02 * a.a20 + b.a03 * a.a30,
   b.a00 * a.a01 + b.a01 * a.a11 + b.a02 * a.a21 + b.a03 * a.a31,
   b.a00 * a.a02 + b.a01 * a.a12 + b.a02 * a.a22 + b.a03 * a.a32,
   b.a00 * a.a03 + b.a01 * a.a13 + b.a02 * a.a23 + b.a03 * a.a33,
   b.a10 * a.a00 + b.a11 * a.a10 + b.a12 * a.a20 + b.a13 * a.a30,
   b.a10 * a.a01 + b.a11 * a.a11 + b.a12 * a.a21 + b.a13 * a.a31,
   b.a10 * a.a02 + b.a11 * a.a12 + b.a12 * a.a22 + b.a13 * a.a32,
   b.a10 * a.a03 + b.a11 * a.a13 + b.a12 * a.a23 + b.a13 * a.a33,
   b.a20 * a.a00 + b.a21 * a.a10 + b.a22 * a.a20 + b.a23 * a.a30,
   b.a20 * a.a01 + b.a21 * a.a11 + b.a22 * a.a21 + b.a23 * a.a31,
   b.a20 * a.a02 + b.a21 * a.a12 + b.a22 * a.a22 + b.a23 * a.a32,
   b.a20 * a.a03 + b.a21 * a.a13 + b.a22 * a.a23 + b.a23 * a.a33,
   b.a30 * a.a00 + b.a31 * a.a10 + b.a32 * a.a20 + b.a33 * a.a30,
   b.a30 * a.a01 + b.a31 * a.a11 + b.a32 * a.a21 + b.a33 * a.a31,
   b.a30 * a.a02 + b.a31 * a.a12 + b.a32 * a.a22 + b.a33 * a.a32,
   b.a30 * a.a03 + b.a31 * a.a13 + b.a32 * a.a23 + b.a33 * a.a33⟩

/-- `Matrix4::identity` in exact arithmetic. -/
def QMatrix4.identity : QMatrix4 :=
  ⟨1, 0, 0, 0, 0, 1, 0, 0, 0, 0, 1, 0, 0, 0, 0, 1⟩


/-! ### Basic facts about the binary32 model -/

theorem bitlen_zero (fuel : Nat) : bitlen fuel 0 = 0 := by
  cases fuel <;> simp [bitlen]

theorem bitlen_pos (fuel n : Nat) (hn : n ≠ 0) (hf : 1 ≤ fuel) : 1 ≤ bitlen fuel n := by
  cases fuel with
  | zero => omega
  | succ f => simp [bitlen, hn]

theorem bitlen_lt (fuel : Nat) : ∀ n, n ≤ fuel → n < 2 ^ bitlen fuel n := by
  induction fuel with
  | zero =>
    intro n hn
    have : n = 0 := by omega
    subst this
    simp [bitlen]
  | succ f ih =>
    intro n hn
    by_cases h0 : n = 0
    · subst h0; simp [bitlen]
    · have hlt : n / 2 < n := Nat.div_lt_self (Nat.pos_of_ne_zero h0) (by norm_num)
      have h2 := ih (n / 2) (by omega)
      simp only [bitlen, if_neg h0]
      have hp : 2 ^ (bitlen f (n / 2) + 1) = 2 * 2 ^ bitlen f (n / 2) := by ring
      omega

theorem bitlen_ge (fuel : Nat) : ∀ n, n ≤ fuel → n ≠ 0 → 2 ^ (bitlen fuel n - 1) ≤ n := by
  induction fuel with
  | zero => intro n hn h0; omega
  | succ f ih =>
    intro n hn h0
    simp only [bitlen, if_neg h0, Nat.add_sub_cancel]
    by_cases hh : n / 2 = 0
    · rw [hh, bitlen_zero]
      have : 1 ≤ n := Nat.pos_of_ne_zero h0
      simpa using this
    · have hlt : n / 2 < n := Nat.div_lt_self (Nat.pos_of_ne_zero h0) (by norm_num)
      have h2 := ih (n / 2) (by omega) hh
      have hp : 1 ≤ bitlen f (n / 2) := bitlen_pos f (n / 2) hh (by omega)
      have he : 2 ^ bitlen f (n / 2) = 2 * 2 ^ (bitlen f (n / 2) - 1) := by
        conv_lhs => rw [show bitlen f (n / 2) = (bitlen f (n / 2) - 1) + 1 by omega]
        ring
      omega

theorem blen_lt (n : Nat) : n < 2 ^ blen n := bitlen_lt (n + 1) n (by omega)

theorem blen_ge (n : Nat) (h : n ≠ 0) : 2 ^ (blen n - 1) ≤ n :=
  bitlen_ge (n + 1) n (by omega) h

theorem blen_pos (n : Nat) (h : n ≠ 0) : 1 ≤ blen n :=
  bitlen_pos (n + 1) n h (by omega)

theorem blen_eq (n t : Nat) (hn : n ≠ 0) (ht : 1 ≤ t)
    (h1 : 2 ^ (t - 1) ≤ n) (h2 : n < 2 ^ t) : blen n = t := by
  have ha1 := blen_lt n
  have ha2 := blen_ge n hn
  have hb1 : blen n - 1 < t := by
    by_contra hc
    have : 2 ^ t ≤ 2 ^ (blen n - 1) := Nat.pow_le_pow_right (by norm_num) (by omega)
    omega
  have hb2 : t - 1 < blen n := by
    by_contra hc
    have : 2 ^ blen n ≤ 2 ^ (t - 1) := Nat.pow_le_pow_right (by norm_num) (by omega)
    omega
  have := blen_pos n hn
  omega

theorem blen_mul_pow (m k : Nat) (hm : m ≠ 0) : blen (m * 2 ^ k) = blen m + k := by
  have h1 := blen_ge m hm
  have h2 := blen_lt m
  have hp := blen_pos m hm
  refine blen_eq _ _ (by positivity) (by omega) ?_ ?_
  · have hsplit : 2 ^ (blen m + k - 1) = 2 ^ (blen m - 1) * 2 ^ k := by
      rw [← Nat.pow_add]
      congr 1
      omega
    rw [hsplit]
    exact Nat.mul_le_mul_right _ h1
  · have hsplit : 2 ^ (blen m + k) = 2 ^ blen m * 2 ^ k := by rw [← Nat.pow_add]
    rw [hsplit]
    have hk : 0 < 2 ^ k := Nat.pos_pow_of_pos k (by norm_num)
    exact Nat.mul_lt_mul_of_lt_of_le h2 (le_refl _) hk

theorem blen_of_24 (m : Nat) (h1 : 2 ^ 23 ≤ m) (h2 : m < 2 ^ 24) : blen m = 24 :=
  blen_eq m 24 (by omega) (by omega) (by omega) h2

theorem blen_le_23 (m : Nat) (h : m < 2 ^ 23) : blen m ≤ 23 := by
  by_cases hm : m = 0
  · subst hm
    simp [blen, bitlen]
  · have h1 := blen_ge m hm
    by_contra hc
    have : 2 ^ 23 ≤ 2 ^ (blen m - 1) := Nat.pow_le_pow_right (by norm_num) (by omega)
    omega

/-- Rounding a canonical representation returns it unchanged. -/
theorem roundPos_id (s : Bool) (m : Nat) (e : Int) (h24 : m < 2 ^ 24)
    (hlo : -149 ≤ e) (hhi : e ≤ 104) (hsub : m < 2 ^ 23 → e = -149) :
    roundPos s m e = .fin s m e := by
  by_cases hm : m = 0
  · subst hm
    rw [hsub (by norm_num)]
    simp [roundPos]
  · by_cases hn : 2 ^ 23 ≤ m
    · have hb : blen m = 24 := blen_of_24 m hn h24
      simp only [roundPos, if_neg hm, hb]
      have h1 : max (e + ((24 : Nat) : Int) - 24) (-149) = e := by
        rw [show e + ((24 : Nat) : Int) - 24 = e by push_cast; ring]
        exact max_eq_left (by omega)
      rw [h1]
      rw [if_pos (by omega : e - e ≤ (0 : Int))]
      rw [show e - e = (0 : Int) by ring]
      norm_num
      omega
    · have he : e = -149 := hsub (by omega)
      subst he
      have hb : blen m ≤ 23 := blen_le_23 m (by omega)
      simp only [roundPos, if_neg hm]
      have h1 : max ((-149 : Int) + ((blen m : Nat) : Int) - 24) (-149) = -149 := by
        have : ((blen m : Nat) : Int) ≤ 23 := by exact_mod_cast hb
        exact max_eq_right (by omega)
      rw [h1]
      rw [if_pos (by omega : (-149 : Int) - (-149) ≤ 0)]
      rw [show (-149 : Int) - (-149) = 0 by ring]
      norm_num

/-- Rounding a canonical value whose mantissa has been shifted left by `k`
bits (with the exponent lowered by `k`) returns the canonical form. -/
theorem roundPos_shift (s : Bool) (m : Nat) (e : Int) (k : Nat) (h24 : m < 2 ^ 24)
    (hlo : -149 ≤ e) (hhi : e ≤ 104) (hsub : m < 2 ^ 23 → e = -149) (hm : m ≠ 0) :
    roundPos s (m * 2 ^ k) (e - k) = .fin s m e := by
  rcases Nat.eq_zero_or_pos k with hk | hk
  · subst hk
    norm_num
    exact roundPos_id s m e h24 hlo hhi hsub
  · have hmk : m * 2 ^ k ≠ 0 := by positivity
    have hbk : blen (m * 2 ^ k) = blen m + k := blen_mul_pow m k hm
    by_cases hn : 2 ^ 23 ≤ m
    · have hb : blen m = 24 := blen_of_24 m hn h24
      simp only [roundPos, if_neg hmk, hbk, hb]
      have h1 : max (e - (k : Int) + (((24 + k : Nat) : Int)) - 24) (-149) = e := by
        rw [show e - (k : Int) + (((24 + k : Nat) : Int)) - 24 = e by push_cast; ring]
        exact max_eq_left (by omega)
      rw [h1]
      rw [if_neg (by omega : ¬ (e - (e - (k : Int)) ≤ 0))]
      have hsh : (e - (e - (k : Int))).toNat = k := by omega
      rw [hsh]
      have hq : m * 2 ^ k / 2 ^ k = m := Nat.mul_div_cancel _ (by positivity)
      have hlow : m * 2 ^ k % 2 ^ k = 0 := Nat.mul_mod_left m _
      rw [hq, hlow]
      have hhalf : (0 : Nat) < 2 ^ (k - 1) := by positivity
      rw [if_neg (by omega : ¬ (2 ^ (k - 1) < 0 ∨ (0 : Nat) = 2 ^ (k - 1) ∧ m % 2 = 1))]
      rw [if_pos h24]
      rw [if_neg (by omega : ¬ (104 : Int) < e)]
    · have he : e = -149 := hsub (by omega)
      subst he
      have hb : blen m ≤ 23 := blen_le_23 m (by omega)
      simp only [roundPos, if_neg hmk, hbk]
      have h1 : max ((-149 : Int) - (k : Int) + (((blen m + k : Nat) : Int)) - 24) (-149)
          = -149 := by
        have : ((blen m : Nat) : Int) ≤ 23 := by exact_mod_cast hb
        rw [show (-149 : Int) - (k : Int) + (((blen m + k : Nat) : Int)) - 24
            = -149 + ((blen m : Nat) : Int) - 24 by push_cast; ring]
        exact max_eq_right (by omega)
      rw [h1]
      rw [if_neg (by omega : ¬ ((-149 : Int) - (-149 - (k : Int)) ≤ 0))]
      have hsh : ((-149 : Int) - (-149 - (k : Int))).toNat = k := by omega
      rw [hsh]
      have hq : m * 2 ^ k / 2 ^ k = m := Nat.mul_div_cancel _ (by positivity)
      have hlow : m * 2 ^ k % 2 ^ k = 0 := Nat.mul_mod_left m _
      rw [hq, hlow]
      have hhalf : (0 : Nat) < 2 ^ (k - 1) := by positivity
      rw [if_neg (by omega : ¬ (2 ^ (k - 1) < 0 ∨ (0 : Nat) = 2 ^ (k - 1) ∧ m % 2 = 1))]
      rw [if_pos h24]
      norm_num


/-! ### Operation-level facts used by the symbolic claims -/

theorem f32Mul_one_right (s : Bool) (m : Nat) (e : Int) (h : F32.Wf (.fin s m e)) :
    f32Mul (.fin s m e) f32One = .fin s m e := by
  obtain ⟨h24, hlo, hhi, hsub⟩ := h
  by_cases hm : m = 0
  · subst hm
    rw [hsub (by norm_num)]
    simp [f32Mul, f32One]
  · simp only [f32Mul, f32One]
    rw [if_neg (by positivity : ¬ m * 2 ^ 23 = 0)]
    rw [show e + (-23 : Int) = e - (23 : Nat) by push_cast; ring]
    rw [Bool.xor_false]
    exact roundPos_shift s m e 23 h24 hlo hhi hsub hm

theorem f32Mul_one_left (s : Bool) (m : Nat) (e : Int) (h : F32.Wf (.fin s m e)) :
    f32Mul f32One (.fin s m e) = .fin s m e := by
  obtain ⟨h24, hlo, hhi, hsub⟩ := h
  by_cases hm : m = 0
  · subst hm
    rw [hsub (by norm_num)]
    simp [f32Mul, f32One]
  · simp only [f32Mul, f32One]
    rw [if_neg (by positivity : ¬ 2 ^ 23 * m = 0)]
    rw [Nat.mul_comm (2 ^ 23) m]
    rw [show (-23 : Int) + e = e - (23 : Nat) by push_cast; ring]
    rw [Bool.false_xor]
    exact roundPos_shift s m e 23 h24 hlo hhi hsub hm

theorem f32Mul_negOne_left (x : F32) (hx : x.Wf) : f32Mul (f32Neg f32One) x = f32Neg x := by
  cases x with
  | nan => simp [f32Mul, f32Neg, f32One]
  | inf t =>
    simp only [f32One, f32Neg, f32Mul]
    rw [if_neg (by positivity : ¬ (2 : Nat) ^ 23 = 0)]
    simp
  | fin s m e =>
    obtain ⟨h24, hlo, hhi, hsub⟩ := hx
    by_cases hm : m = 0
    · subst hm
      rw [hsub (by norm_num)]
      simp [f32Mul, f32Neg, f32One]
    · simp only [f32One, f32Neg, f32Mul]
      rw [if_neg (by positivity : ¬ 2 ^ 23 * m = 0)]
      rw [Nat.mul_comm (2 ^ 23) m]
      rw [show (-23 : Int) + e = e - (23 : Nat) by push_cast; ring]
      rw [show (!false ^^ s) = !s by simp]
      exact roundPos_shift (!s) m e 23 h24 hlo hhi hsub hm

theorem f32Mul_zero_left (t : Bool) (e0 : Int) (s : Bool) (m : Nat) (e : Int) :
    f32Mul (.fin t 0 e0) (.fin s m e) = .fin (xor t s) 0 (-149) := by
  simp [f32Mul]

theorem f32Mul_zero_right (s : Bool) (m : Nat) (e : Int) (t : Bool) (e0 : Int) :
    f32Mul (.fin s m e) (.fin t 0 e0) = .fin (xor s t) 0 (-149) := by
  simp [f32Mul]

theorem f32Mul_f32Zero_left (s : Bool) (m : Nat) (e : Int) :
    f32Mul f32Zero (.fin s m e) = .fin s 0 (-149) := by
  simp [f32Zero, f32Mul]

theorem f32Mul_f32Zero_right (s : Bool) (m : Nat) (e : Int) :
    f32Mul (.fin s m e) f32Zero = .fin s 0 (-149) := by
  simp [f32Zero, f32Mul]

theorem f32Mul_zz : f32Mul f32Zero f32Zero = .fin false 0 (-149) := by decide

theorem f32Mul_zo : f32Mul f32Zero f32One = .fin false 0 (-149) := by decide

theorem f32Mul_oz : f32Mul f32One f32Zero = .fin false 0 (-149) := by decide

theorem f32Add_zero_right (s : Bool) (m : Nat) (e : Int) (t : Bool) (h : F32.Wf (.fin s m e))
    (hm : m ≠ 0) : f32Add (.fin s m e) (.fin t 0 (-149)) = .fin s m e := by
  obtain ⟨h24, hlo, hhi, hsub⟩ := h
  simp only [f32Add]
  rw [min_eq_right hlo]
  have hz : ((if t = true then -((0 : Nat) : Int) else ((0 : Nat) : Int))
      * 2 ^ (((-149 : Int)) - -149).toNat) = 0 := by
    cases t <;> simp
  rw [hz, add_zero]
  set k := (e - -149).toNat with hk
  have hmi : (0 : Int) < (m : Int) := by exact_mod_cast Nat.pos_of_ne_zero hm
  have hprod : (0 : Int) < (m : Int) * 2 ^ k := by positivity
  have hI : ((if s = true then -((m : Nat) : Int) else ((m : Nat) : Int)) * 2 ^ k) ≠ 0 := by
    cases s <;> simp only [if_true, if_false, Bool.false_eq_true, neg_mul] <;> omega
  have hd : decide ((if s = true then -((m : Nat) : Int) else ((m : Nat) : Int)) * 2 ^ k < 0)
      = s := by
    cases s with
    | false =>
      simp only [if_false, Bool.false_eq_true, decide_eq_false_iff_not, not_lt]
      positivity
    | true =>
      simp only [if_true, decide_eq_true_eq, neg_mul]
      omega
  have hna : (((if s = true then -((m : Nat) : Int) else ((m : Nat) : Int)) * 2 ^ k)).natAbs
      = m * 2 ^ k := by
    cases s <;>
      simp [Int.natAbs_mul, Int.natAbs_neg, Int.natAbs_pow]
  rw [if_neg hI, hd, hna]
  have hke : (-149 : Int) = e - (k : Int) := by omega
  rw [hke]
  exact roundPos_shift s m e k h24 hlo hhi hsub hm

theorem f32Add_zero_left (t : Bool) (s : Bool) (m : Nat) (e : Int) (h : F32.Wf (.fin s m e))
    (hm : m ≠ 0) : f32Add (.fin t 0 (-149)) (.fin s m e) = .fin s m e := by
  obtain ⟨h24, hlo, hhi, hsub⟩ := h
  simp only [f32Add]
  rw [min_eq_left hlo]
  have hz : ((if t = true then -((0 : Nat) : Int) else ((0 : Nat) : Int))
      * 2 ^ (((-149 : Int)) - -149).toNat) = 0 := by
    cases t <;> simp
  rw [hz, zero_add]
  set k := (e - -149).toNat with hk
  have hmi : (0 : Int) < (m : Int) := by exact_mod_cast Nat.pos_of_ne_zero hm
  have hprod : (0 : Int) < (m : Int) * 2 ^ k := by positivity
  have hI : ((if s = true then -((m : Nat) : Int) else ((m : Nat) : Int)) * 2 ^ k) ≠ 0 := by
    cases s <;> simp only [if_true, if_false, Bool.false_eq_true, neg_mul] <;> omega
  have hd : decide ((if s = true then -((m : Nat) : Int) else ((m : Nat) : Int)) * 2 ^ k < 0)
      = s := by
    cases s with
    | false =>
      simp only [if_false, Bool.false_eq_true, decide_eq_false_iff_not, not_lt]
      positivity
    | true =>
      simp only [if_true, decide_eq_true_eq, neg_mul]
      omega
  have hna : (((if s = true then -((m : Nat) : Int) else ((m : Nat) : Int)) * 2 ^ k)).natAbs
      = m * 2 ^ k := by
    cases s <;>
      simp [Int.natAbs_mul, Int.natAbs_neg, Int.natAbs_pow]
  rw [if_neg hI, hd, hna]
  have hke : (-149 : Int) = e - (k : Int) := by omega
  rw [hke]
  exact roundPos_shift s m e k h24 hlo hhi hsub hm

theorem f32Add_zeros (a b : Bool) (e1 e2 : Int) :
    f32Add (.fin a 0 e1) (.fin b 0 e2) = .fin (a && b) 0 (-149) := by
  cases a <;> cases b <;> simp [f32Add]

theorem f32Add_inf_fin (s : Bool) (t : Bool) (m : Nat) (e : Int) :
    f32Add (.inf s) (.fin t m e) = .inf s := rfl

theorem f32Add_fin_inf (s : Bool) (m : Nat) (e : Int) (t : Bool) :
    f32Add (.fin s m e) (.inf t) = .inf t := rfl

theorem roundPos_ne_nan (s : Bool) (m : Nat) (e : Int) : roundPos s m e ≠ .nan := by
  simp only [roundPos]
  repeat' split
  all_goals simp

theorem f32Add_fin_fin_ne_nan (s1 : Bool) (m1 : Nat) (e1 : Int) (s2 : Bool) (m2 : Nat)
    (e2 : Int) : f32Add (.fin s1 m1 e1) (.fin s2 m2 e2) ≠ .nan := by
  simp only [f32Add]
  repeat' split
  all_goals first
  | exact roundPos_ne_nan _ _ _
  | simp

theorem f32Eq_refl (x : F32) (h : x ≠ .nan) : f32Eq x x = true := by
  cases x with
  | nan => exact absurd rfl h
  | inf s => simp [f32Eq]
  | fin s m e => simp [f32Eq]

theorem f32Eq_zeros (a b : Bool) (e1 e2 : Int) :
    f32Eq (.fin a 0 e1) (.fin b 0 e2) = true := by
  simp [f32Eq]

theorem f32Lt_zeros (a b : Bool) (e1 e2 : Int) :
    f32Lt (.fin a 0 e1) (.fin b 0 e2) = false := by
  cases a <;> cases b <;> simp [f32Lt]

theorem eq_zero_shape (x : F32) (h : f32Eq x f32Zero = true) : ∃ s e, x = .fin s 0 e := by
  cases x with
  | nan => simp [f32Eq] at h
  | inf s => simp [f32Eq, f32Zero] at h
  | fin s m e =>
    refine ⟨s, e, ?_⟩
    simp only [f32Eq, f32Zero] at h
    have : m = 0 := by
      rcases Bool.or_eq_true_iff.mp h with h1 | h2
      · simpa using (Bool.and_eq_true_iff.mp h1).1
      · simpa using ((Bool.and_eq_true_iff.mp (Bool.and_eq_true_iff.mp h2).1).2)
    subst this
    rfl

theorem f32Div_one_zero (s : Bool) (e : Int) : f32Div f32One (.fin s 0 e) = .inf s := by
  simp [f32Div, f32One]

theorem f32Mul_inf_right_not_finite (x : F32) (s : Bool) :
    (f32Mul x (.inf s)).isFinite = false := by
  cases x with
  | nan => simp [f32Mul, F32.isFinite]
  | inf t => simp [f32Mul, F32.isFinite]
  | fin t m e =>
    simp only [f32Mul]
    split <;> simp [F32.isFinite]


/-! ### Concrete values used by the claims -/

/-- The `f32` value `0.1` (`13421773 * 2^-27`). -/
def f32Tenth : F32 := .fin false 13421773 (-27)
/-- The `f32` value `0.3` (`10066330 * 2^-25`). -/
def f32ThreeTenths : F32 := .fin false 10066330 (-25)
/-- The `f32` value of `cos 1.0` (`9064768 * 2^-24`). -/
def f32Cos1 : F32 := .fin false 9064768 (-24)
/-- The `f32` value of `sin 1.0` (`14117540 * 2^-24`). -/
def f32Sin1 : F32 := .fin false 14117540 (-24)
/-- The `f32` value nearest `1e30` (`13234890 * 2^76`). -/
def f32Big : F32 := .fin false 13234890 76
/-- The subnormal-squaring witness value `2^-75`. -/
def f32Small : F32 := .fin false 8388608 (-98)

def zeroVector3 : Vector3 := ⟨f32Zero, f32Zero, f32Zero⟩

/-- A well-conditioned-looking but epsilon-breaking matrix: the 2x2 block
`[[0.1, 0.1], [0.1, 0.3]]` (stored columns) bordered by the identity. -/
def mIllCond : Matrix4 :=
  ⟨⟨f32Tenth, f32Tenth, f32Zero, f32Zero⟩,
   ⟨f32Tenth, f32ThreeTenths, f32Zero, f32Zero⟩,
   ⟨f32Zero, f32Zero, f32One, f32Zero⟩,
   ⟨f32Zero, f32Zero, f32Zero, f32One⟩⟩

/-- The matrix of the repository's own `invert` test:
`[[3,2,1,1],[2,3,2,2],[1,2,3,3],[0,1,1,0]]`. -/
def mRepoTest : Matrix4 :=
  ⟨⟨f32OfInt 3, f32OfInt 2, f32OfInt 1, f32OfInt 1⟩,
   ⟨f32OfInt 2, f32OfInt 3, f32OfInt 2, f32OfInt 2⟩,
   ⟨f32OfInt 1, f32OfInt 2, f32OfInt 3, f32OfInt 3⟩,
   ⟨f32Zero, f32OfInt 1, f32OfInt 1, f32Zero⟩⟩

/-- The same matrix as a rational matrix. -/
def qRepoTest : QMatrix4 :=
  ⟨3, 2, 1, 1, 2, 3, 2, 2, 1, 2, 3, 3, 0, 1, 1, 0⟩

/-- The all-zeroes (singular) matrix. -/
def mZero : Matrix4 :=
  ⟨⟨f32Zero, f32Zero, f32Zero, f32Zero⟩,
   ⟨f32Zero, f32Zero, f32Zero, f32Zero⟩,
   ⟨f32Zero, f32Zero, f32Zero, f32Zero⟩,
   ⟨f32Zero, f32Zero, f32Zero, f32Zero⟩⟩

/-- All sixteen entries of a matrix are non-finite (infinity or NaN). -/
def matrix4AllNonFinite (m : Matrix4) : Bool :=
  !m.c0.x.isFinite && !m.c0.y.isFinite && !m.c0.z.isFinite && !m.c0.w.isFinite &&
  !m.c1.x.isFinite && !m.c1.y.isFinite && !m.c1.z.isFinite && !m.c1.w.isFinite &&
  !m.c2.x.isFinite && !m.c2.y.isFinite && !m.c2.z.isFinite && !m.c2.w.isFinite &&
  !m.c3.x.isFinite && !m.c3.y.isFinite && !m.c3.z.isFinite && !m.c3.w.isFinite

/-- `impl Add<Vector3> for Point` (componentwise `f32` addition). -/
def pointAddVector (p : Point) (v : Vector3) : Point :=
  ⟨f32Add p.x v.x, f32Add p.y v.y, f32Add p.z v.z⟩

/-! ### The claims -/

/-- C7: `translation(Vector3(10,1,0)) * translation(Vector3(-2,-5,0))` applied
to the origin yields exactly `Point(8,-4,0)` (`==` is the derived `f32`
equality used by the repository's own test). -/
theorem translation_compose_origin :
    pointBeq
      (matMulPoint
        (matMul (Matrix4.translation ⟨f32OfInt 10, f32OfInt 1, f32Zero⟩)
          (Matrix4.translation ⟨f32OfInt (-2), f32OfInt (-5), f32Zero⟩))
        ⟨f32Zero, f32Zero, f32Zero⟩)
      ⟨f32OfInt 8, f32OfInt (-4), f32Zero⟩ = true := by
  decide

/-- C8: on the array `[0, 1, ..., 15]` the two constructors disagree:
`from_1d_array` places `a[4] = 4` at column 1, component 3 (`w`), where the
`from_2d_array` grouping has `a[7] = 7` — the `a[4]` in the source is a slip
(the repository's own `as_slice` round-trip test only passes because its test
array happens to satisfy `a[4] == a[7]`). -/
theorem from_1d_array_disagrees_with_from_2d_array :
    (Matrix4.from1dArray (fun i => f32OfInt i.val)).c1.w = f32OfInt 4 ∧
    (Matrix4.from2dArray (fun i j => f32OfInt (4 * i.val + j.val))).c1.w = f32OfInt 7 ∧
    Matrix4.from1dArray (fun i => f32OfInt i.val) ≠
      Matrix4.from2dArray (fun i j => f32OfInt (4 * i.val + j.val)) := by
  refine ⟨by decide, by decide, by decide⟩

/-- C2: `invert` is a total function, and whenever the determinant it computes
compares equal to zero, the reciprocal `1.0 / det` is a signed infinity and
every entry of the returned matrix is non-finite (an infinity or a NaN). -/
theorem invert_singular_all_entries_nonfinite (M : Matrix4)
    (h : f32Eq (Matrix4.invertDetRaw M) f32Zero = true) :
    matrix4AllNonFinite (Matrix4.invert M) = true := by
  obtain ⟨s, e, hshape⟩ := eq_zero_shape _ h
  have hdiv : Matrix4.invertRecip M = .inf s := by
    rw [Matrix4.invertRecip, hshape]
    exact f32Div_one_zero s e
  simp only [Matrix4.invert, matrix4AllNonFinite, hdiv, f32Mul_inf_right_not_finite,
    Bool.not_false, Bool.and_self]

/-- Witness for C2 at the zero matrix. -/
theorem invert_singular_all_entries_nonfinite_witness :
    f32Eq (Matrix4.invertDetRaw mZero) f32Zero = true ∧
    matrix4AllNonFinite (Matrix4.invert mZero) = true :=
  ⟨by decide, invert_singular_all_entries_nonfinite mZero (by decide)⟩

/-- C10: the scalar approximate-equality predicate is the absolute test
`(a - b).abs() < f32::EPSILON`; consequently `nearly_equals(x, x)` holds for
every finite `x` and fails when `x` is an infinity or NaN (the subtraction
yields NaN, and every comparison with NaN is false). -/
theorem nearly_equals_self_iff_finite (x : F32) :
    (x.isFinite = true → f32NearlyEq x x = true) ∧
    (x.isFinite = false → f32NearlyEq x x = false) := by
  cases x with
  | nan => exact ⟨fun hc => by simp [F32.isFinite] at hc, fun _ => by decide⟩
  | inf s =>
    refine ⟨fun hc => by simp [F32.isFinite] at hc, fun _ => ?_⟩
    cases s <;> decide
  | fin s m e =>
    refine ⟨fun _ => ?_, fun hc => by simp [F32.isFinite] at hc⟩
    have hsub : f32Sub (.fin s m e) (.fin s m e) = .fin false 0 (-149) := by
      simp only [f32Sub, f32Neg, f32Add]
      have hS : ((if s = true then -((m : Nat) : Int) else ((m : Nat) : Int))
            * 2 ^ (e - min e e).toNat)
          + ((if (!s) = true then -((m : Nat) : Int) else ((m : Nat) : Int))
            * 2 ^ (e - min e e).toNat) = 0 := by
        cases s <;> simp
      rw [if_pos hS]
      cases s <;> simp
    rw [f32NearlyEq, hsub]
    decide

/-- Witness for C10 at `x = 1.0` (finite) and `x = +∞` (non-finite). -/
theorem nearly_equals_self_iff_finite_witness :
    (f32One.isFinite = true ∧ f32NearlyEq f32One f32One = true) ∧
    ((F32.inf false).isFinite = false ∧ f32NearlyEq (F32.inf false) (F32.inf false) = false) :=
  ⟨⟨by decide, (nearly_equals_self_iff_finite f32One).1 (by decide)⟩,
   ⟨by decide, (nearly_equals_self_iff_finite (F32.inf false)).2 (by decide)⟩⟩


/-- C1 counterexample: `mIllCond` has a determinant that compares unequal to
zero (it is non-singular in the sense computed inside `invert`), yet
`invert(M) * M` is NOT nearly-equal to `identity()` under the library's
epsilon comparison: entry `[0][0]` evaluates to `1 + 2^-23` and entry
`[1][0]` to `2^-23`, both exactly `f32::EPSILON` away from the identity,
and the comparison is strict. -/
theorem invert_times_self_epsilon_fails :
    f32Eq (Matrix4.invertDetRaw mIllCond) f32Zero = false ∧
    matrix4NearlyEq (matMul (Matrix4.invert mIllCond) mIllCond) Matrix4.identity = false := by
  refine ⟨by decide, by decide⟩

/-- C1 amended: the inversion algorithm is an exact left inverse in exact
arithmetic — for every rational 4x4 matrix whose determinant (as computed by
the source's cofactor expansion) is nonzero, `invert(M) * M = identity()`
with the source's own formulas read over `ℚ` — and in `f32` the nearly-equal
property holds for the repository's own test matrix
`[[3,2,1,1],[2,3,2,2],[1,2,3,3],[0,1,1,0]]` (the product there is even
exactly the identity), though not for every non-singular matrix. -/
theorem invert_exact_left_inverse :
    (∀ M : QMatrix4, QMatrix4.det M ≠ 0 →
      qmatMul (QMatrix4.invert M) M = QMatrix4.identity) ∧
    matrix4NearlyEq (matMul (Matrix4.invert mRepoTest) mRepoTest) Matrix4.identity = true := by
  constructor
  · intro M hd
    have hadj : QMatrix4.det M =
        M.a00 * M.adj00 + M.a01 * M.adj10 + M.a02 * M.adj20 + M.a03 * M.adj30 := rfl
    simp only [qmatMul, QMatrix4.invert, QMatrix4.identity, QMatrix4.mk.injEq]
    refine ⟨?_, ?_, ?_, ?_, ?_, ?_, ?_, ?_, ?_, ?_, ?_, ?_, ?_, ?_, ?_, ?_⟩
    all_goals field_simp
    all_goals simp only [QMatrix4.det, QMatrix4.adj00, QMatrix4.adj01, QMatrix4.adj02,
      QMatrix4.adj03, QMatrix4.adj10, QMatrix4.adj11, QMatrix4.adj12, QMatrix4.adj13,
      QMatrix4.adj20, QMatrix4.adj21, QMatrix4.adj22, QMatrix4.adj23,
      QMatrix4.adj30, QMatrix4.adj31, QMatrix4.adj32, QMatrix4.adj33] at hd ⊢
    all_goals ring
  · decide

/-- Witness for C1 (amended) at the repository's test matrix, whose exact
determinant is nonzero. -/
theorem qRepoTest_det_ne_zero : QMatrix4.det qRepoTest ≠ 0 := by
  have hval : QMatrix4.det qRepoTest = -8 := by
    simp only [QMatrix4.det, QMatrix4.adj00, QMatrix4.adj10, QMatrix4.adj20, QMatrix4.adj30,
      qRepoTest]
    norm_num
  rw [hval]
  norm_num

theorem invert_exact_left_inverse_witness :
    QMatrix4.det qRepoTest ≠ 0 ∧
    qmatMul (QMatrix4.invert qRepoTest) qRepoTest = QMatrix4.identity :=
  ⟨qRepoTest_det_ne_zero, invert_exact_left_inverse.1 qRepoTest qRepoTest_det_ne_zero⟩


/-- C5 counterexample: with `v = (NaN, 0, 0)`, `identity() * v == v` is false:
the x component of the product is NaN and `NaN == NaN` is false under the
derived (IEEE) equality — so the claim fails for NaN components (and
similarly `0 * ∞ = NaN` breaks it for mixed infinite components). -/
theorem identity_times_nan_vector_ne :
    vector3Beq (matMulVector3 Matrix4.identity ⟨.nan, f32Zero, f32Zero⟩)
      ⟨.nan, f32Zero, f32Zero⟩ = false := by
  decide

/-- C5 amended: multiplication by `identity()` is the identity map on vectors
and points with finite components (any finite `f32` values, zeros of either
sign included); for NaN or infinite components the IEEE comparison fails. -/
theorem identity_mul_vector_point (v : Vector3) (p : Point)
    (hvx : v.x.Wf) (hvy : v.y.Wf) (hvz : v.z.Wf)
    (hfx : v.x.isFinite = true) (hfy : v.y.isFinite = true) (hfz : v.z.isFinite = true)
    (hpx : p.x.Wf) (hpy : p.y.Wf) (hpz : p.z.Wf)
    (hgx : p.x.isFinite = true) (hgy : p.y.isFinite = true) (hgz : p.z.isFinite = true) :
    vector3Beq (matMulVector3 Matrix4.identity v) v = true ∧
    pointBeq (matMulPoint Matrix4.identity p) p = true := by
  obtain ⟨x, y, z⟩ := v
  obtain ⟨px, py, pz⟩ := p
  simp only at hvx hvy hvz hfx hfy hfz hpx hpy hpz hgx hgy hgz
  cases x with
  | nan => simp [F32.isFinite] at hfx
  | inf s => simp [F32.isFinite] at hfx
  | fin sx mx ex =>
  cases y with
  | nan => simp [F32.isFinite] at hfy
  | inf s => simp [F32.isFinite] at hfy
  | fin sy my ey =>
  cases z with
  | nan => simp [F32.isFinite] at hfz
  | inf s => simp [F32.isFinite] at hfz
  | fin sz mz ez =>
  cases px with
  | nan => simp [F32.isFinite] at hgx
  | inf s => simp [F32.isFinite] at hgx
  | fin sp mp ep =>
  cases py with
  | nan => simp [F32.isFinite] at hgy
  | inf s => simp [F32.isFinite] at hgy
  | fin sq mq eq0 =>
  cases pz with
  | nan => simp [F32.isFinite] at hgz
  | inf s => simp [F32.isFinite] at hgz
  | fin sr mr er =>
  constructor
  · simp only [Matrix4.identity, matMulVector3, vector3Beq,
      f32Mul_one_left _ _ _ hvx, f32Mul_one_left _ _ _ hvy, f32Mul_one_left _ _ _ hvz,
      f32Mul_f32Zero_left, Bool.and_eq_true]
    refine ⟨⟨?_, ?_⟩, ?_⟩
    · by_cases hm : mx = 0
      · subst hm
        rw [f32Add_zeros, f32Add_zeros]
        exact f32Eq_zeros _ _ _ _
      · rw [f32Add_zero_right _ _ _ _ hvx hm, f32Add_zero_right _ _ _ _ hvx hm]
        exact f32Eq_refl _ (by simp)
    · by_cases hm : my = 0
      · subst hm
        rw [f32Add_zeros, f32Add_zeros]
        exact f32Eq_zeros _ _ _ _
      · rw [f32Add_zero_left _ _ _ _ hvy hm, f32Add_zero_right _ _ _ _ hvy hm]
        exact f32Eq_refl _ (by simp)
    · by_cases hm : mz = 0
      · subst hm
        rw [f32Add_zeros, f32Add_zeros]
        exact f32Eq_zeros _ _ _ _
      · rw [f32Add_zeros, f32Add_zero_left _ _ _ _ hvz hm]
        exact f32Eq_refl _ (by simp)
  · simp only [Matrix4.identity, matMulPoint, pointBeq,
      f32Mul_one_left _ _ _ hpx, f32Mul_one_left _ _ _ hpy, f32Mul_one_left _ _ _ hpz,
      f32Mul_f32Zero_left, Bool.and_eq_true]
    refine ⟨⟨?_, ?_⟩, ?_⟩
    · by_cases hm : mp = 0
      · subst hm
        rw [f32Add_zeros, f32Add_zeros]
        rw [show f32Zero = F32.fin false 0 (-149) from rfl, f32Add_zeros]
        exact f32Eq_zeros _ _ _ _
      · rw [f32Add_zero_right _ _ _ _ hpx hm, f32Add_zero_right _ _ _ _ hpx hm]
        rw [show f32Zero = F32.fin false 0 (-149) from rfl, f32Add_zero_right _ _ _ _ hpx hm]
        exact f32Eq_refl _ (by simp)
    · by_cases hm : mq = 0
      · subst hm
        rw [f32Add_zeros, f32Add_zeros]
        rw [show f32Zero = F32.fin false 0 (-149) from rfl, f32Add_zeros]
        exact f32Eq_zeros _ _ _ _
      · rw [f32Add_zero_left _ _ _ _ hpy hm, f32Add_zero_right _ _ _ _ hpy hm]
        rw [show f32Zero = F32.fin false 0 (-149) from rfl, f32Add_zero_right _ _ _ _ hpy hm]
        exact f32Eq_refl _ (by simp)
    · by_cases hm : mr = 0
      · subst hm
        rw [f32Add_zeros, f32Add_zeros]
        rw [show f32Zero = F32.fin false 0 (-149) from rfl, f32Add_zeros]
        exact f32Eq_zeros _ _ _ _
      · rw [f32Add_zeros, f32Add_zero_left _ _ _ _ hpz hm]
        rw [show f32Zero = F32.fin false 0 (-149) from rfl, f32Add_zero_right _ _ _ _ hpz hm]
        exact f32Eq_refl _ (by simp)

/-- Witness for C5 (amended) at `v = (1, -0, 3)`, `p = (10, 0, -5)`. -/
theorem identity_mul_vector_point_witness :
    vector3Beq (matMulVector3 Matrix4.identity ⟨f32One, f32NegZero, f32OfInt 3⟩)
      ⟨f32One, f32NegZero, f32OfInt 3⟩ = true ∧
    pointBeq (matMulPoint Matrix4.identity ⟨f32OfInt 10, f32Zero, f32OfInt (-5)⟩)
      ⟨f32OfInt 10, f32Zero, f32OfInt (-5)⟩ = true :=
  identity_mul_vector_point ⟨f32One, f32NegZero, f32OfInt 3⟩
    ⟨f32OfInt 10, f32Zero, f32OfInt (-5)⟩
    (by decide) (by decide) (by decide) (by decide) (by decide) (by decide)
    (by decide) (by decide) (by decide) (by decide) (by decide) (by decide)


/-! ### Zero-absorption shapes for left-associated f32 sums -/

theorem addZZ_A (s : Bool) (m : Nat) (e : Int) (h : F32.Wf (.fin s m e)) (a b : Bool) :
    f32Eq (f32Add (f32Add (.fin s m e) (.fin a 0 (-149))) (.fin b 0 (-149)))
      (.fin s m e) = true := by
  by_cases hm : m = 0
  · subst hm
    rw [f32Add_zeros, f32Add_zeros]
    exact f32Eq_zeros _ _ _ _
  · rw [f32Add_zero_right _ _ _ _ h hm, f32Add_zero_right _ _ _ _ h hm]
    exact f32Eq_refl _ (by simp)

theorem addZZ_B (s : Bool) (m : Nat) (e : Int) (h : F32.Wf (.fin s m e)) (a b : Bool) :
    f32Eq (f32Add (f32Add (.fin a 0 (-149)) (.fin s m e)) (.fin b 0 (-149)))
      (.fin s m e) = true := by
  by_cases hm : m = 0
  · subst hm
    rw [f32Add_zeros, f32Add_zeros]
    exact f32Eq_zeros _ _ _ _
  · rw [f32Add_zero_left _ _ _ _ h hm, f32Add_zero_right _ _ _ _ h hm]
    exact f32Eq_refl _ (by simp)

theorem addZZ_C (s : Bool) (m : Nat) (e : Int) (h : F32.Wf (.fin s m e)) (a b : Bool) :
    f32Eq (f32Add (f32Add (.fin a 0 (-149)) (.fin b 0 (-149))) (.fin s m e))
      (.fin s m e) = true := by
  rw [f32Add_zeros]
  by_cases hm : m = 0
  · subst hm
    rw [f32Add_zeros]
    exact f32Eq_zeros _ _ _ _
  · rw [f32Add_zero_left _ _ _ _ h hm]
    exact f32Eq_refl _ (by simp)

theorem addZZ_Z (a b c d : Bool) (e2 : Int) :
    f32Eq (f32Add (f32Add (.fin a 0 (-149)) (.fin b 0 (-149))) (.fin c 0 (-149)))
      (.fin d 0 e2) = true := by
  rw [f32Add_zeros, f32Add_zeros]
  exact f32Eq_zeros _ _ _ _

theorem f32Lt_f32Zero_zero (s : Bool) (e : Int) :
    f32Lt f32Zero (.fin s 0 e) = false := by
  cases s <;> simp [f32Zero, f32Lt]

/-- C3 counterexample: with the computed cosine and sine of `1.0` radian,
`rotation_z(1.0) * Vector3::new(1,0,0)` is `(cos 1, -sin 1, 0)`, not
`(cos 1, sin 1, 0)`: the y component is the negated sine, so a positive
angle rotates clockwise (not counter-clockwise) about `+z`. -/
theorem rotation_z_unit_x_not_ccw :
    vector3Beq
      (matMulVector3 (Matrix4.rotationZ f32Cos1 f32Sin1) ⟨f32One, f32Zero, f32Zero⟩)
      ⟨f32Cos1, f32Sin1, f32Zero⟩ = false := by
  decide

/-- C3 amended: the axis rotation constructors follow the clockwise
convention (the transpose of the standard counter-clockwise matrices): for
finite computed `c = cos θ`, `s = sin θ`,
`rotation_z(θ) * (1,0,0) = (c, -s, 0)`, `rotation_x(θ) * (0,1,0) = (0, c, -s)`
and `rotation_y(θ) * (0,0,1) = (-s, 0, c)` under the derived `==`. -/
theorem rotation_matrices_clockwise (c s : F32) (hc : c.Wf) (hs : s.Wf)
    (hfc : c.isFinite = true) (hfs : s.isFinite = true) :
    vector3Beq (matMulVector3 (Matrix4.rotationZ c s) ⟨f32One, f32Zero, f32Zero⟩)
      ⟨c, f32Neg s, f32Zero⟩ = true ∧
    vector3Beq (matMulVector3 (Matrix4.rotationX c s) ⟨f32Zero, f32One, f32Zero⟩)
      ⟨f32Zero, c, f32Neg s⟩ = true ∧
    vector3Beq (matMulVector3 (Matrix4.rotationY c s) ⟨f32Zero, f32Zero, f32One⟩)
      ⟨f32Neg s, f32Zero, c⟩ = true := by
  cases c with
  | nan => simp [F32.isFinite] at hfc
  | inf u => simp [F32.isFinite] at hfc
  | fin cc mc ec =>
  cases s with
  | nan => simp [F32.isFinite] at hfs
  | inf u => simp [F32.isFinite] at hfs
  | fin ss ms es =>
  refine ⟨?_, ?_, ?_⟩
  · simp only [Matrix4.rotationZ, matMulVector3, vector3Beq, f32Neg,
      f32Mul_one_right cc mc ec hc, f32Mul_one_right (!ss) ms es hs,
      f32Mul_f32Zero_right, f32Mul_zz, Bool.and_eq_true]
    exact ⟨⟨addZZ_A cc mc ec hc ss false, addZZ_A (!ss) ms es hs cc false⟩,
      addZZ_Z false false false false (-149)⟩
  · simp only [Matrix4.rotationX, matMulVector3, vector3Beq, f32Neg,
      f32Mul_one_right cc mc ec hc, f32Mul_one_right (!ss) ms es hs,
      f32Mul_f32Zero_right, f32Mul_zz, f32Mul_zo, f32Mul_oz, Bool.and_eq_true]
    exact ⟨⟨addZZ_Z false false false false (-149), addZZ_B cc mc ec hc false ss⟩,
      addZZ_B (!ss) ms es hs false cc⟩
  · simp only [Matrix4.rotationY, matMulVector3, vector3Beq, f32Neg,
      f32Mul_one_right cc mc ec hc, f32Mul_one_right (!ss) ms es hs,
      f32Mul_f32Zero_right, f32Mul_zz, f32Mul_zo, f32Mul_oz, Bool.and_eq_true]
    exact ⟨⟨addZZ_C (!ss) ms es hs cc false, addZZ_Z false false false false (-149)⟩,
      addZZ_C cc mc ec hc ss false⟩

/-- Witness for C3 (amended) at the computed cosine and sine of `1.0`. -/
theorem rotation_matrices_clockwise_witness :
    vector3Beq
      (matMulVector3 (Matrix4.rotationZ f32Cos1 f32Sin1) ⟨f32One, f32Zero, f32Zero⟩)
      ⟨f32Cos1, f32Neg f32Sin1, f32Zero⟩ = true :=
  (rotation_matrices_clockwise f32Cos1 f32Sin1
    (by decide) (by decide) (by decide) (by decide)).1

/-- C4 counterexample: `v = (2^-75, 0, 0)` is not the zero vector, yet its
computed magnitude is exactly zero (the square underflows to `+0`), and
`normalized(v)` returns `v` itself — which is not the zero vector, not even
up to IEEE equality. -/
theorem normalized_zero_magnitude_not_zero_vector :
    f32Eq (Vector3.magnitude ⟨f32Small, f32Zero, f32Zero⟩) f32Zero = true ∧
    vector3Beq (Vector3.normalized ⟨f32Small, f32Zero, f32Zero⟩) zeroVector3 = false := by
  refine ⟨by decide, by decide⟩

/-- C4 amended: whenever the computed magnitude is exactly zero — which can
happen for nonzero vectors with subnormal components — `normalized` returns
its input unchanged (no error); in particular `normalized(zero) = zero`.
The near-unit-magnitude property holds for ordinary nonzero vectors such as
`(3,4,0)`, but not universally: `(1e30, 0, 0)` has nonzero (infinite)
computed magnitude and normalizes to the zero vector. -/
theorem normalized_zero_magnitude_fixed_point :
    (∀ v : Vector3, f32Eq v.magnitude f32Zero = true → v.normalized = v) ∧
    Vector3.normalized zeroVector3 = zeroVector3 ∧
    f32NearlyEq (Vector3.magnitude (Vector3.normalized ⟨f32OfInt 3, f32OfInt 4, f32Zero⟩))
      f32One = true ∧
    (f32Eq (Vector3.magnitude ⟨f32Big, f32Zero, f32Zero⟩) f32Zero = false ∧
      f32NearlyEq (Vector3.magnitude (Vector3.normalized ⟨f32Big, f32Zero, f32Zero⟩))
        f32One = false) := by
  refine ⟨?_, by decide, by decide, by decide, by decide⟩
  intro v h
  obtain ⟨s, e, hshape⟩ := eq_zero_shape _ h
  simp only [Vector3.normalized, hshape, f32Lt_f32Zero_zero]
  simp

/-- Witness for C4 (amended) at `v = (2^-75, 0, 0)`. -/
theorem normalized_zero_magnitude_fixed_point_witness :
    f32Eq (Vector3.magnitude ⟨f32Small, f32Zero, f32Zero⟩) f32Zero = true ∧
    Vector3.normalized ⟨f32Small, f32Zero, f32Zero⟩ = ⟨f32Small, f32Zero, f32Zero⟩ :=
  ⟨by decide, normalized_zero_magnitude_fixed_point.1 ⟨f32Small, f32Zero, f32Zero⟩ (by decide)⟩


theorem f32Add_f32Zero_z (a : Bool) :
    f32Add f32Zero (.fin a 0 (-149)) = .fin false 0 (-149) := by
  cases a <;> decide

theorem f32Add_f32Zero_fin (s : Bool) (m : Nat) (e : Int) (h : F32.Wf (.fin s m e))
    (hm : m ≠ 0) : f32Add f32Zero (.fin s m e) = .fin s m e :=
  f32Add_zero_left false s m e h hm

theorem addZero_vs (u1 u2 : Bool) (x : F32) (hx : x.Wf) (hxn : x ≠ .nan) :
    f32Eq (f32Add (.fin u1 0 (-149)) x) (f32Add (.fin u2 0 (-149)) x) = true := by
  cases x with
  | nan => exact absurd rfl hxn
  | inf t => rw [f32Add_fin_inf, f32Add_fin_inf]; exact f32Eq_refl _ (by simp)
  | fin t m e =>
    by_cases hm : m = 0
    · subst hm
      have he : e = -149 := hx.2.2.2 (by positivity)
      subst he
      rw [f32Add_zeros, f32Add_zeros]
      exact f32Eq_zeros _ _ _ _
    · rw [f32Add_zero_left _ _ _ _ hx hm, f32Add_zero_left _ _ _ _ hx hm]
      exact f32Eq_refl _ (by simp)

theorem addFin_selfEq (s : Bool) (m : Nat) (e : Int) (y : F32) (hyn : y ≠ .nan) :
    f32Eq (f32Add (.fin s m e) y) (f32Add (.fin s m e) y) = true := by
  cases y with
  | nan => exact absurd rfl hyn
  | inf t => rw [f32Add_fin_inf]; exact f32Eq_refl _ (by simp)
  | fin t n e2 => exact f32Eq_refl _ (f32Add_fin_fin_ne_nan _ _ _ _ _ _)

/-- C6 counterexample: with any parameters (here `aspect = 1`, `tan(fov/2) = 1`,
`znear = 1`, `zfar = 2`) and `v = (∞, 0, 0, 0)`, the w component of
`perspective(..) * v` is `0 * ∞ = NaN`, which does not equal `-v.z = -0`:
the property fails for vectors with non-finite components. -/
theorem perspective_w_not_neg_z_at_inf :
    f32Eq
      (matMulVector4 (Matrix4.perspective f32One f32One f32One (f32OfInt 2))
        ⟨.inf false, f32Zero, f32Zero, f32Zero⟩).w
      (f32Neg (f32Zero)) = false := by
  decide

/-- C6 amended: for every choice of parameters and every `Vector4` whose
`x`, `y`, `w` components are finite and whose `z` is not NaN, the w component
of `perspective(aspect, fov, znear, zfar) * v` equals `-v.z` under IEEE
equality (the matrix stores `-1` in the perspective-divide slot, so
`w_clip = -z_view`); the parameters may be arbitrary, including NaN. -/
theorem perspective_w_equals_neg_z (ar t zn zf : F32) (v : Vector4)
    (hx : v.x.isFinite = true) (hy : v.y.isFinite = true) (hw : v.w.isFinite = true)
    (hz : v.z.Wf) (hzn : v.z ≠ .nan) :
    f32Eq (matMulVector4 (Matrix4.perspective ar t zn zf) v).w (f32Neg v.z) = true := by
  obtain ⟨x, y, z, w⟩ := v
  simp only at hx hy hw hz hzn
  cases x with
  | nan => simp [F32.isFinite] at hx
  | inf u => simp [F32.isFinite] at hx
  | fin sx mx ex =>
  cases y with
  | nan => simp [F32.isFinite] at hy
  | inf u => simp [F32.isFinite] at hy
  | fin sy my ey =>
  cases w with
  | nan => simp [F32.isFinite] at hw
  | inf u => simp [F32.isFinite] at hw
  | fin sw mw ew =>
  simp only [matMulVector4, Matrix4.perspective, Matrix4.row3, dot4,
    f32Mul_f32Zero_left, f32Mul_negOne_left _ hz, f32Add_f32Zero_z, f32Add_zeros,
    Bool.false_and]
  cases z with
  | nan => exact absurd rfl hzn
  | inf sz =>
    simp only [f32Neg]
    rw [f32Add_fin_inf, f32Add_inf_fin]
    exact f32Eq_refl _ (by simp)
  | fin sz mz ez =>
    by_cases hm : mz = 0
    · subst hm
      have he : ez = -149 := hz.2.2.2 (by positivity)
      subst he
      simp only [f32Neg]
      rw [f32Add_zeros, f32Add_zeros]
      exact f32Eq_zeros _ _ _ _
    · simp only [f32Neg]
      have hznWf : F32.Wf (.fin (!sz) mz ez) := hz
      rw [f32Add_zero_left _ _ _ _ hznWf hm, f32Add_zero_right _ _ _ _ hznWf hm]
      exact f32Eq_refl _ (by simp)

/-- Witness for C6 (amended) at `aspect = 1`, `t = 1`, `znear = 1`,
`zfar = 2`, `v = (5, -3, 7, 1)`. -/
theorem perspective_w_equals_neg_z_witness :
    f32Eq
      (matMulVector4 (Matrix4.perspective f32One f32One f32One (f32OfInt 2))
        ⟨f32OfInt 5, f32OfInt (-3), f32OfInt 7, f32One⟩).w
      (f32Neg (f32OfInt 7)) = true :=
  perspective_w_equals_neg_z f32One f32One f32One (f32OfInt 2)
    ⟨f32OfInt 5, f32OfInt (-3), f32OfInt 7, f32One⟩
    (by decide) (by decide) (by decide) (by decide) (by decide)

/-- C9 counterexample: with `p = (NaN, 0, 0)` and `v = (0, 0, 0)`,
`p * translation(v) == p` is false — the first conjunct of the claim fails
as soon as a component is NaN, because the derived `==` is IEEE equality. -/
theorem point_mul_translation_nan_ne :
    pointBeq
      (pointMulMat ⟨.nan, f32Zero, f32Zero⟩ (Matrix4.translation zeroVector3))
      ⟨.nan, f32Zero, f32Zero⟩ = false := by
  decide

/-- C9 amended: for every `Point p` with finite components,
`p * translation(v) == p` for arbitrary `v` (the right-multiplication
reads only the three basis columns, never the translation column), while
`translation(v) * p == p + v` for every `v` with non-NaN components —
so the two application orders are genuinely different maps. -/
theorem point_mul_translation_ignored (p : Point)
    (hpx : p.x.Wf) (hpy : p.y.Wf) (hpz : p.z.Wf)
    (hgx : p.x.isFinite = true) (hgy : p.y.isFinite = true) (hgz : p.z.isFinite = true) :
    (∀ v : Vector3, pointBeq (pointMulMat p (Matrix4.translation v)) p = true) ∧
    (∀ v : Vector3, v.x.Wf → v.y.Wf → v.z.Wf →
      v.x ≠ .nan → v.y ≠ .nan → v.z ≠ .nan →
      pointBeq (matMulPoint (Matrix4.translation v) p) (pointAddVector p v) = true) := by
  obtain ⟨px, py, pz⟩ := p
  simp only at hpx hpy hpz hgx hgy hgz
  cases px with
  | nan => simp [F32.isFinite] at hgx
  | inf u => simp [F32.isFinite] at hgx
  | fin sp mp ep =>
  cases py with
  | nan => simp [F32.isFinite] at hgy
  | inf u => simp [F32.isFinite] at hgy
  | fin sq mq eq0 =>
  cases pz with
  | nan => simp [F32.isFinite] at hgz
  | inf u => simp [F32.isFinite] at hgz
  | fin sr mr er =>
  constructor
  · intro v
    simp only [pointMulMat, Matrix4.translation, dot3, pointBeq,
      f32Mul_one_right sp mp ep hpx, f32Mul_one_right sq mq eq0 hpy,
      f32Mul_one_right sr mr er hpz,
      f32Mul_f32Zero_right, f32Add_f32Zero_z, Bool.and_eq_true]
    refine ⟨⟨?_, ?_⟩, ?_⟩
    · by_cases hm : mp = 0
      · subst hm
        have he : ep = -149 := hpx.2.2.2 (by positivity)
        subst he
        rw [f32Add_f32Zero_z, f32Add_zeros, f32Add_zeros]
        exact f32Eq_zeros _ _ _ _
      · rw [f32Add_f32Zero_fin _ _ _ hpx hm, f32Add_zero_right _ _ _ _ hpx hm,
          f32Add_zero_right _ _ _ _ hpx hm]
        exact f32Eq_refl _ (by simp)
    · by_cases hm : mq = 0
      · subst hm
        have he : eq0 = -149 := hpy.2.2.2 (by positivity)
        subst he
        rw [f32Add_zeros, f32Add_zeros]
        exact f32Eq_zeros _ _ _ _
      · rw [f32Add_zero_left _ _ _ _ hpy hm, f32Add_zero_right _ _ _ _ hpy hm]
        exact f32Eq_refl _ (by simp)
    · by_cases hm : mr = 0
      · subst hm
        have he : er = -149 := hpz.2.2.2 (by positivity)
        subst he
        rw [f32Add_zeros, f32Add_zeros]
        exact f32Eq_zeros _ _ _ _
      · rw [f32Add_zeros, f32Add_zero_left _ _ _ _ hpz hm]
        exact f32Eq_refl _ (by simp)
  · intro v hvx hvy hvz hnx hny hnz
    obtain ⟨vx, vy, vz⟩ := v
    simp only at hvx hvy hvz hnx hny hnz
    simp only [matMulPoint, Matrix4.translation, pointBeq, pointAddVector,
      f32Mul_one_left sp mp ep hpx, f32Mul_one_left sq mq eq0 hpy,
      f32Mul_one_left sr mr er hpz,
      f32Mul_f32Zero_left, Bool.and_eq_true]
    refine ⟨⟨?_, ?_⟩, ?_⟩
    · by_cases hm : mp = 0
      · subst hm
        have he : ep = -149 := hpx.2.2.2 (by positivity)
        subst he
        rw [f32Add_zeros, f32Add_zeros]
        exact addZero_vs _ _ _ hvx hnx
      · rw [f32Add_zero_right _ _ _ _ hpx hm, f32Add_zero_right _ _ _ _ hpx hm]
        exact addFin_selfEq _ _ _ _ hnx
    · by_cases hm : mq = 0
      · subst hm
        have he : eq0 = -149 := hpy.2.2.2 (by positivity)
        subst he
        rw [f32Add_zeros, f32Add_zeros]
        exact addZero_vs _ _ _ hvy hny
      · rw [f32Add_zero_left _ _ _ _ hpy hm, f32Add_zero_right _ _ _ _ hpy hm]
        exact addFin_selfEq _ _ _ _ hny
    · by_cases hm : mr = 0
      · subst hm
        have he : er = -149 := hpz.2.2.2 (by positivity)
        subst he
        rw [f32Add_zeros, f32Add_zeros]
        exact addZero_vs _ _ _ hvz hnz
      · rw [f32Add_zeros, f32Add_zero_left _ _ _ _ hpz hm]
        exact addFin_selfEq _ _ _ _ hnz

/-- Witness for C9 (amended) at `p = (1, 2, 3)`, `v = (10, -5, 0)`. -/
theorem point_mul_translation_ignored_witness :
    pointBeq
      (pointMulMat ⟨f32OfInt 1, f32OfInt 2, f32OfInt 3⟩
        (Matrix4.translation ⟨f32OfInt 10, f32OfInt (-5), f32Zero⟩))
      ⟨f32OfInt 1, f32OfInt 2, f32OfInt 3⟩ = true ∧
    pointBeq
      (matMulPoint (Matrix4.translation ⟨f32OfInt 10, f32OfInt (-5), f32Zero⟩)
        ⟨f32OfInt 1, f32OfInt 2, f32OfInt 3⟩)
      (pointAddVector ⟨f32OfInt 1, f32OfInt 2, f32OfInt 3⟩
        ⟨f32OfInt 10, f32OfInt (-5), f32Zero⟩) = true :=
  ⟨(point_mul_translation_ignored ⟨f32OfInt 1, f32OfInt 2, f32OfInt 3⟩
      (by decide) (by decide) (by decide) (by decide) (by decide) (by decide)).1
      ⟨f32OfInt 10, f32OfInt (-5), f32Zero⟩,
   (point_mul_translation_ignored ⟨f32OfInt 1, f32OfInt 2, f32OfInt 3⟩
      (by decide) (by decide) (by decide) (by decide) (by decide) (by decide)).2
      ⟨f32OfInt 10, f32OfInt (-5), f32Zero⟩
      (by decide) (by decide) (by decide) (by decide) (by decide) (by decide)⟩

end MiniMath
